import Mathlib

/-!
The op-node derivation core: Batch Queue and Consolidation Checker.

Shallow embedding of `op-node/rollup/derive/batch_queue.go` and
`op-node/rollup/derive/engine_consolidate.go`.

Conventions of the embedding:
* Go slices are lists; a `nil` slice and an empty slice are both `[]`.
* `uint64` values are naturals, and every `uint64` addition of the source is
  written with an explicit `% 2 ^ 64`.
* 32-byte hashes and 20-byte addresses are naturals compared by equality only.
* A Go `error` result is an `Option`: `none` is `nil`.
* An index read that is out of range is the outcome `Ret.faulted`.
-/

set_option autoImplicit false

namespace OpNode

/-! ## Data model -/

/-- Go `common.Hash`: a 32-byte value, used only through equality. -/
abbrev common.Hash := Nat

/-- Go `common.Address`: a 20-byte value, used only through equality. -/
abbrev common.Address := Nat

/-- Go `eth.Bytes32`. -/
abbrev eth.Bytes32 := Nat

/-- Go `eth.Data` (`hexutil.Bytes`): a byte string. -/
abbrev eth.Data := List UInt8

/-- Go `error` values produced by collaborators, kept as their message. -/
abbrev GoError := String

/-- Go `eth.BlockID`. -/
structure eth.BlockID where
  Hash : common.Hash
  Number : Nat
deriving DecidableEq, Repr

/-- Go `eth.L1BlockRef`. -/
structure eth.L1BlockRef where
  Hash : common.Hash
  Number : Nat
  ParentHash : common.Hash
  Time : Nat
deriving DecidableEq, Repr

/-- Go `eth.L1BlockRef.ID`. -/
def eth.L1BlockRef.ID (r : eth.L1BlockRef) : eth.BlockID :=
  { Hash := r.Hash, Number := r.Number }

/-- Go `eth.L2BlockRef`. -/
structure eth.L2BlockRef where
  Hash : common.Hash
  Number : Nat
  ParentHash : common.Hash
  Time : Nat
  L1Origin : eth.BlockID
deriving DecidableEq, Repr

/-- Go `eth.PayloadAttributes`. -/
structure eth.PayloadAttributes where
  Timestamp : Nat
  PrevRandao : eth.Bytes32
  SuggestedFeeRecipient : common.Address
  Transactions : List eth.Data
  NoTxPool : Bool
deriving DecidableEq, Repr

/-- Go `eth.ExecutionPayload`, restricted to the fields the derivation core reads. -/
structure eth.ExecutionPayload where
  ParentHash : common.Hash
  Timestamp : Nat
  PrevRandao : eth.Bytes32
  Transactions : List eth.Data
deriving DecidableEq, Repr

/-- Outcome of running a Go function body: it returns a value, or it faults
(a run-time panic such as an index out of range). -/
inductive Ret (α : Type) where
  | returned (a : α)
  | faulted
deriving DecidableEq, Repr

/-! ## Consolidation checker (`engine_consolidate.go`) -/

/-- The five `fmt.Errorf` results of `AttributesMatchBlock`, each with the two
values it formats, in the order `expected`, `got` of the format string. -/
inductive MatchError where
  | parentHash (expected got : common.Hash)
  | timestamp (expected got : Nat)
  | random (expected got : eth.Bytes32)
  | txCount (expected : Nat) (got : List eth.Data)
  | transaction (i : Nat) (expected got : eth.Data)
deriving DecidableEq, Repr

/-- The loop `for i, otx := range attrs.Transactions` of `AttributesMatchBlock`,
started at index `i` with the transactions of `attrs` still to visit. -/
def matchTransactions (blockTxs : List eth.Data) :
    Nat → List eth.Data → Ret (Option MatchError)
  | _, [] => .returned none
  | i, otx :: rest =>
    match blockTxs[i]? with
    | none => .faulted
    | some expect =>
      if otx ≠ expect then .returned (some (.transaction i expect otx))
      else matchTransactions blockTxs (i + 1) rest

/-- Go `AttributesMatchBlock`. -/
def AttributesMatchBlock (attrs : eth.PayloadAttributes) (parentHash : common.Hash)
    (block : eth.ExecutionPayload) : Ret (Option MatchError) :=
  if parentHash ≠ block.ParentHash then
    .returned (some (.parentHash parentHash block.ParentHash))
  else if attrs.Timestamp ≠ block.Timestamp then
    .returned (some (.timestamp attrs.Timestamp block.Timestamp))
  else if attrs.PrevRandao ≠ block.PrevRandao then
    .returned (some (.random attrs.PrevRandao block.PrevRandao))
  else if attrs.Transactions.length ≠ block.Transactions.length then
    .returned (some (.txCount attrs.Transactions.length block.Transactions))
  else
    matchTransactions block.Transactions 0 attrs.Transactions

/-! ## Batch queue (`batch_queue.go`) -/

/-- Go `rollup.Config`, restricted to the options the batch queue reads. -/
structure rollup.Config where
  SeqWindowSize : Nat
  BlockTime : Nat
  MaxSequencerDrift : Nat
  DepositContractAddress : common.Address
  FeeRecipientAddress : common.Address
deriving DecidableEq, Repr

/-- Go `BatchData`: the fields the batch queue reads. -/
structure BatchData where
  Timestamp : Nat
  Transactions : List eth.Data
deriving DecidableEq, Repr

/-- Go `BatchesWithOrigin`. -/
structure BatchesWithOrigin where
  Origin : eth.L1BlockRef
  Batches : List BatchData
deriving DecidableEq, Repr

/-- Go `BatchQueue`: the mutable fields `inputs` and `last`, and the
configuration it points to. The logger and the downloader are collaborators
and are passed to the operations that use them. -/
structure BatchQueue where
  inputs : List BatchesWithOrigin
  last : eth.L2BlockRef
  config : rollup.Config
deriving DecidableEq, Repr

/-- The functions `DeriveL2Inputs` calls that are defined outside
`batch_queue.go`: the downloader `bq.dl.Fetch` (its transaction list, which
the caller discards, is left out), the `MixDigest` method of the fetched
`L1Info`, and the package functions `DeriveDeposits`, `FilterBatches`,
`FillMissingBatches` and `L1InfoDepositBytes`. -/
structure Collaborators (L1Info Receipts : Type) where
  Fetch : common.Hash → Except GoError (L1Info × Receipts)
  MixDigest : L1Info → common.Hash
  DeriveDeposits : Receipts → common.Address → List eth.Data × List GoError
  FilterBatches : rollup.Config → Nat → Nat → Nat → List BatchData → List BatchData
  FillMissingBatches : List BatchData → Nat → Nat → Nat → Nat → List BatchData
  L1InfoDepositBytes : Nat → L1Info → Except GoError eth.Data

/-- Go `BatchQueue.lastOrigin`. -/
def BatchQueue.lastOrigin (bq : BatchQueue) : eth.BlockID :=
  match bq.inputs.getLast? with
  | some e => e.Origin.ID
  | none => bq.last.L1Origin

/-- The error of `AddOrigin`, with the values it formats: the current last
origin and the rejected origin. -/
inductive AddOriginError where
  | reorg (parent : eth.BlockID) (origin : eth.L1BlockRef)
deriving DecidableEq, Repr

/-- Go `BatchQueue.AddOrigin`: the returned error and the queue afterwards. -/
def BatchQueue.AddOrigin (bq : BatchQueue) (origin : eth.L1BlockRef) :
    Option AddOriginError × BatchQueue :=
  let parent := bq.lastOrigin
  if parent.Hash ≠ origin.ParentHash then
    (some (.reorg parent origin), bq)
  else
    (none, { bq with inputs := bq.inputs ++ [{ Origin := origin, Batches := [] }] })

/-- The error of `AddBatch`, with the timestamp it formats. -/
inductive AddBatchError where
  | noOrigin (timestamp : Nat)
deriving DecidableEq, Repr

/-- Go `BatchQueue.AddBatch`: the returned error and the queue afterwards. -/
def BatchQueue.AddBatch (bq : BatchQueue) (batch : BatchData) :
    Option AddBatchError × BatchQueue :=
  if bq.inputs.length = 0 then
    (some (.noOrigin batch.Timestamp), bq)
  else
    let inputs := List.modify (fun e => { e with Batches := e.Batches ++ [batch] })
      (bq.inputs.length - 1) bq.inputs
    (none, { bq with inputs := inputs })

/-- Go `BatchQueue.Reset`. -/
def BatchQueue.Reset (bq : BatchQueue) (head : eth.L2BlockRef) : BatchQueue :=
  { bq with last := head, inputs := [] }

/-- The errors `DeriveL2Inputs` returns. -/
inductive DeriveError where
  | emptyBatchQueue
  | windowNotFull
  | fetchFailed (l1Origin : eth.L1BlockRef) (err : GoError)
  | l1InfoTxFailed (err : GoError)
deriving DecidableEq, Repr

/-- Go `uint64` addition. -/
def addU64 (a b : Nat) : Nat := (a + b) % 2 ^ 64

/-- The value `minL2Time` of `DeriveL2Inputs`. -/
def minL2Time (config : rollup.Config) (lastL2Timestamp : Nat) : Nat :=
  addU64 lastL2Timestamp config.BlockTime

/-- The value `maxL2Time` of `DeriveL2Inputs`, after the adjusting `if`. -/
def maxL2Time (config : rollup.Config) (l1Origin : eth.L1BlockRef) (lastL2Timestamp : Nat) :
    Nat :=
  let maxL2Time := addU64 l1Origin.Time config.MaxSequencerDrift
  if addU64 (minL2Time config lastL2Timestamp) config.BlockTime > maxL2Time then
    addU64 (minL2Time config lastL2Timestamp) config.BlockTime
  else maxL2Time

/-- The loop `for _, b := range bq.inputs` of `DeriveL2Inputs`, which appends
the batches of every buffered slot to `batches`. -/
def collectBatches (inputs : List BatchesWithOrigin) : List BatchData :=
  inputs.foldl (fun batches b => batches ++ b.Batches) []

/-- The loop `for i, batch := range batches` of `DeriveL2Inputs`, started at
index `i` with the attributes built so far. It stops at the first failure of
`L1InfoDepositBytes`. -/
def buildAttributes {L1Info Receipts : Type} (c : Collaborators L1Info Receipts)
    (config : rollup.Config) (l1Info : L1Info) (deposits : List eth.Data) :
    Nat → List BatchData → List eth.PayloadAttributes →
      Except GoError (List eth.PayloadAttributes)
  | _, [], attributes => .ok attributes
  | i, batch :: rest, attributes =>
    match c.L1InfoDepositBytes i l1Info with
    | .error err => .error err
    | .ok l1InfoTx =>
      let txns : List eth.Data := [l1InfoTx]
      let txns := if i = 0 then txns ++ deposits else txns
      let txns := txns ++ batch.Transactions
      let attrs : eth.PayloadAttributes :=
        { Timestamp := batch.Timestamp
          PrevRandao := c.MixDigest l1Info
          SuggestedFeeRecipient := config.FeeRecipientAddress
          Transactions := txns
          NoTxPool := true }
      buildAttributes c config l1Info deposits (i + 1) rest (attributes ++ [attrs])

/-- The batch list `DeriveL2Inputs` builds attributes from: the buffered
batches of every slot, filtered, then filled. -/
def derivedBatches {L1Info Receipts : Type} (c : Collaborators L1Info Receipts)
    (bq : BatchQueue) (l1Origin nextL1Block : eth.L1BlockRef) (lastL2Timestamp : Nat) :
    List BatchData :=
  let epoch := l1Origin.Number
  let batches := collectBatches bq.inputs
  let batches := c.FilterBatches bq.config epoch (minL2Time bq.config lastL2Timestamp)
    (maxL2Time bq.config l1Origin lastL2Timestamp) batches
  c.FillMissingBatches batches epoch bq.config.BlockTime
    (minL2Time bq.config lastL2Timestamp) nextL1Block.Time

/-- What one call of `DeriveL2Inputs` does: the value it returns (attribute
list and error) or a fault, the block hashes it passed to `Fetch`, the
deposit errors it logged (with the `l1OriginHash` logged beside each), and
the queue afterwards. -/
structure DeriveCall where
  ret : Ret (List eth.PayloadAttributes × Option DeriveError)
  fetched : List common.Hash
  logged : List (common.Hash × GoError)
  bq : BatchQueue
deriving DecidableEq, Repr

/-- Go `BatchQueue.DeriveL2Inputs`. -/
def BatchQueue.DeriveL2Inputs {L1Info Receipts : Type} (c : Collaborators L1Info Receipts)
    (bq : BatchQueue) (lastL2Timestamp : Nat) : DeriveCall :=
  if bq.inputs.length = 0 then
    { ret := .returned ([], some .emptyBatchQueue), fetched := [], logged := [], bq := bq }
  else if bq.inputs.length < bq.config.SeqWindowSize then
    { ret := .returned ([], some .windowNotFull), fetched := [], logged := [], bq := bq }
  else
    match bq.inputs[0]? with
    | none => { ret := .faulted, fetched := [], logged := [], bq := bq }
    | some first =>
      let l1Origin := first.Origin
      match bq.inputs[1]? with
      | none => { ret := .faulted, fetched := [], logged := [], bq := bq }
      | some second =>
        let nextL1Block := second.Origin
        match c.Fetch l1Origin.Hash with
        | .error err =>
          { ret := .returned ([], some (.fetchFailed l1Origin err))
            fetched := [l1Origin.Hash], logged := [], bq := bq }
        | .ok (l1Info, receipts) =>
          let extracted := c.DeriveDeposits receipts bq.config.DepositContractAddress
          let deposits := extracted.1
          let logged := extracted.2.map (fun err => (l1Origin.Hash, err))
          let batches := derivedBatches c bq l1Origin nextL1Block lastL2Timestamp
          match buildAttributes c bq.config l1Info deposits 0 batches [] with
          | .error err =>
            { ret := .returned ([], some (.l1InfoTxFailed err))
              fetched := [l1Origin.Hash], logged := logged, bq := bq }
          | .ok attributes =>
            { ret := .returned (attributes, none)
              fetched := [l1Origin.Hash], logged := logged
              bq := { bq with inputs := bq.inputs.drop 1 } }

/-- Modelled from the spec: `FillMissingBatches` is called by
`DeriveL2Inputs` and is not among the source files. The spec says it fills
the timestamp slots from `minL2Time` up to its upper bound, in steps of
`blockTime`, so that there are exactly `(bound - minL2Time) / blockTime`
slots, each `blockTime` after the one before and starting at `minL2Time`; a
slot with a batch of that timestamp keeps it (the earliest-arriving one), a
slot without one gets an empty batch. The last parameter is the upper bound
the caller passes. The spec describes the fill only for a positive `blockTime`
and a bound at least one `blockTime` after `minL2Time`; what this definition
gives elsewhere is not part of the model, and no property below relies on it. -/
def FillMissingBatches (batches : List BatchData)
    (epoch blockTime minL2Time maxL2Time : Nat) : List BatchData :=
  let _ := epoch
  (List.range ((maxL2Time - minL2Time) / blockTime)).map fun k =>
    let t := minL2Time + k * blockTime
    match batches.find? (fun b => b.Timestamp = t) with
    | some b => b
    | none => { Timestamp := t, Transactions := [] }

/-! ## Sequences of calls -/

/-- One call on a batch queue; `deriveL2Inputs` carries the behaviour of the
collaborators at the time of the call. -/
inductive Op (L1Info Receipts : Type) where
  | addOrigin (origin : eth.L1BlockRef)
  | addBatch (batch : BatchData)
  | deriveL2Inputs (c : Collaborators L1Info Receipts) (lastL2Timestamp : Nat)
  | reset (head : eth.L2BlockRef)

/-- The queue after one call, whether the call succeeds, fails or faults. -/
def Op.apply {L1Info Receipts : Type} (bq : BatchQueue) : Op L1Info Receipts → BatchQueue
  | .addOrigin origin => (bq.AddOrigin origin).2
  | .addBatch batch => (bq.AddBatch batch).2
  | .deriveL2Inputs c lastL2Timestamp => (bq.DeriveL2Inputs c lastL2Timestamp).bq
  | .reset head => bq.Reset head

/-- The queue after a sequence of calls. -/
def run {L1Info Receipts : Type} (bq : BatchQueue) (ops : List (Op L1Info Receipts)) :
    BatchQueue :=
  ops.foldl Op.apply bq

/-- Bookkeeping beside a run: the origin evicted by the most recent successful
`DeriveL2Inputs` since the last `Reset`, if any. -/
def Op.evicted {L1Info Receipts : Type} (bq : BatchQueue) (ev : Option eth.L1BlockRef) :
    Op L1Info Receipts → Option eth.L1BlockRef
  | .addOrigin _ => ev
  | .addBatch _ => ev
  | .deriveL2Inputs c lastL2Timestamp =>
    match (bq.DeriveL2Inputs c lastL2Timestamp).ret with
    | .returned (_, none) =>
      match bq.inputs.head? with
      | some e => some e.Origin
      | none => ev
    | _ => ev
  | .reset _ => none

/-- The bookkeeping value `Op.evicted` after a sequence of calls. -/
def runEvicted {L1Info Receipts : Type} :
    BatchQueue → Option eth.L1BlockRef → List (Op L1Info Receipts) → Option eth.L1BlockRef
  | _, ev, [] => ev
  | bq, ev, op :: ops => runEvicted (op.apply bq) (op.evicted bq ev) ops

/-- Each entry of the window has `Origin.ParentHash` equal to the
`Origin.Hash` of the entry before it, and the first entry has
`Origin.ParentHash = parent`. -/
def linked : common.Hash → List BatchesWithOrigin → Bool
  | _, [] => true
  | parent, e :: rest => decide (e.Origin.ParentHash = parent) && linked e.Origin.Hash rest

/-- The window invariant of the data model: the window is linked, starting
from the L1 origin recorded in the last known L2 head. -/
def windowInvariant (bq : BatchQueue) : Bool :=
  linked bq.last.L1Origin.Hash bq.inputs

/-- The hash the first buffered origin links to: that of the evicted origin
`ev` when there is one, else that of the L1 origin recorded in the head. -/
def anchorHash (bq : BatchQueue) (ev : Option eth.L1BlockRef) : common.Hash :=
  match ev with
  | some e => e.Hash
  | none => bq.last.L1Origin.Hash

/-! ## Definitions used to state the properties -/

/-- The attributes `DeriveL2Inputs` builds at index `i` from `batch`, given
the L1-info transaction built for that index. -/
def attributesAt {L1Info Receipts : Type} (c : Collaborators L1Info Receipts)
    (config : rollup.Config) (l1Info : L1Info) (deposits : List eth.Data) (i : Nat)
    (batch : BatchData) (l1InfoTx : eth.Data) : eth.PayloadAttributes :=
  { Timestamp := batch.Timestamp
    PrevRandao := c.MixDigest l1Info
    SuggestedFeeRecipient := config.FeeRecipientAddress
    Transactions := [l1InfoTx] ++ (if i = 0 then deposits else []) ++ batch.Transactions
    NoTxPool := true }

/-- The hash the next appended origin must link to: the hash of the last
origin of the window, or `parent` when the window is empty. -/
def lastHash : common.Hash → List BatchesWithOrigin → common.Hash
  | parent, [] => parent
  | _, e :: rest => lastHash e.Origin.Hash rest

/-- The invariant kept by every call: the window is linked from the anchor
hash, and an origin has been evicted only if the window is non-empty. -/
def anchored (bq : BatchQueue) (ev : Option eth.L1BlockRef) : Prop :=
  linked (anchorHash bq ev) bq.inputs = true ∧ (ev ≠ none → bq.inputs ≠ [])

/-! ## Sample values, used to evaluate the definitions -/

/-- A sample L2 head whose L1 origin has hash 10. -/
def sampleHead : eth.L2BlockRef :=
  { Hash := 500, Number := 50, ParentHash := 499, Time := 98
    L1Origin := { Hash := 10, Number := 1 } }

/-- A sample origin, child of the origin of `sampleHead`. -/
def originA : eth.L1BlockRef := { Hash := 11, Number := 2, ParentHash := 10, Time := 100 }

/-- A sample origin, child of `originA`. -/
def originB : eth.L1BlockRef := { Hash := 12, Number := 3, ParentHash := 11, Time := 104 }

/-- A sample origin that is not a child of `originA`. -/
def originX : eth.L1BlockRef := { Hash := 13, Number := 3, ParentHash := 99, Time := 104 }

/-- A sample configuration with a sequencing window of two origins. -/
def sampleConfig : rollup.Config :=
  { SeqWindowSize := 2, BlockTime := 2, MaxSequencerDrift := 10
    DepositContractAddress := 77, FeeRecipientAddress := 88 }

/-- A sample configuration with a sequencing window of one origin. -/
def sampleConfigOne : rollup.Config := { sampleConfig with SeqWindowSize := 1 }

/-- An empty sample queue. -/
def sampleEmpty : BatchQueue := { inputs := [], last := sampleHead, config := sampleConfig }

/-- A sample queue buffering `originA` with one batch and `originB` with none. -/
def sampleQueue : BatchQueue :=
  { inputs := [{ Origin := originA, Batches := [{ Timestamp := 102, Transactions := [[7]] }] },
               { Origin := originB, Batches := [] }]
    last := sampleHead, config := sampleConfig }

/-- A sample queue buffering `originA` and `originB`, with no batch. -/
def sampleQueueNoBatch : BatchQueue :=
  { inputs := [{ Origin := originA, Batches := [] }, { Origin := originB, Batches := [] }]
    last := sampleHead, config := sampleConfig }

/-- A sample queue buffering only `originA`, with a sequencing window of one. -/
def sampleQueueOne : BatchQueue :=
  { inputs := [{ Origin := originA, Batches := [] }]
    last := sampleHead, config := sampleConfigOne }

/-- Sample collaborators: the fetch succeeds, one deposit is extracted and one
log entry is rejected, the filter keeps the batches inside the time bounds,
the fill is `FillMissingBatches`, and the L1-info transaction of index `i` is
the byte string `[1, i]`. The fetched info is the mix digest, the receipts are
the block hash. -/
def sampleCollaborators : Collaborators Nat Nat :=
  { Fetch := fun blockHash => .ok (blockHash + 1000, blockHash)
    MixDigest := fun l1Info => l1Info
    DeriveDeposits := fun _ _ => ([[0xDE]], ["malformed deposit log"])
    FilterBatches := fun _ _ minTime maxTime batches =>
      batches.filter (fun b => decide (minTime ≤ b.Timestamp ∧ b.Timestamp < maxTime))
    FillMissingBatches := FillMissingBatches
    L1InfoDepositBytes := fun i _ => .ok [1, i.toUInt8] }

/-- The attributes derived from `sampleQueue` with `sampleCollaborators` after
the L2 timestamp 98. -/
def sampleAttributes : List eth.PayloadAttributes :=
  [{ Timestamp := 100, PrevRandao := 1011, SuggestedFeeRecipient := 88
     Transactions := [[1, 0], [0xDE]], NoTxPool := true },
   { Timestamp := 102, PrevRandao := 1011, SuggestedFeeRecipient := 88
     Transactions := [[1, 1], [7]], NoTxPool := true }]

/-- The attributes derived from `sampleQueueNoBatch` with
`sampleCollaborators` after the L2 timestamp 98. -/
def sampleAttributesNoBatch : List eth.PayloadAttributes :=
  [{ Timestamp := 100, PrevRandao := 1011, SuggestedFeeRecipient := 88
     Transactions := [[1, 0], [0xDE]], NoTxPool := true },
   { Timestamp := 102, PrevRandao := 1011, SuggestedFeeRecipient := 88
     Transactions := [[1, 1]], NoTxPool := true }]

/-- Sample collaborators whose fetch fails. -/
def sampleFetchFails : Collaborators Nat Nat :=
  { sampleCollaborators with Fetch := fun _ => .error "timeout" }

/-- Sample collaborators whose L1-info transaction fails at index 1. -/
def sampleInfoFails : Collaborators Nat Nat :=
  { sampleCollaborators with
    L1InfoDepositBytes := fun i _ => if i = 1 then .error "encode" else .ok [1, i.toUInt8] }

/-! ## Definitions used to state the properties of call sequences -/

/-- A run of `AddOrigin` calls, one per origin and in order: the error each
call returns, and the queue after the last one. -/
def BatchQueue.addOrigins (bq : BatchQueue) :
    List eth.L1BlockRef → List (Option AddOriginError) × BatchQueue
  | [] => ([], bq)
  | origin :: origins =>
    ((bq.AddOrigin origin).1 :: ((bq.AddOrigin origin).2.addOrigins origins).1,
      ((bq.AddOrigin origin).2.addOrigins origins).2)

/-- The origins chain: the first has parent hash `parent`, and each later one
has as parent hash the hash of the origin before it. -/
def chained : common.Hash → List eth.L1BlockRef → Bool
  | _, [] => true
  | parent, o :: os => decide (o.ParentHash = parent) && chained o.Hash os

/-- A sample origin, child of `originB`. -/
def originC : eth.L1BlockRef := { Hash := 14, Number := 4, ParentHash := 12, Time := 108 }

/-- A sample batch. -/
def sampleBatch : BatchData := { Timestamp := 104, Transactions := [[8], [9]] }

/-- Modelled from the spec: a fill function is as the spec describes it, on
the inputs the spec describes: for a positive `blockTime` and a bound at least
one `blockTime` after `minL2Time` it gives the slots of `FillMissingBatches`.
Nothing is required of it on other inputs. -/
def fillsAsSpecified
    (fill : List BatchData → Nat → Nat → Nat → Nat → List BatchData) : Prop :=
  ∀ batches epoch blockTime minTime bound, 0 < blockTime → minTime + blockTime ≤ bound →
    fill batches epoch blockTime minTime bound =
      FillMissingBatches batches epoch blockTime minTime bound

/-- A sample configuration whose drift bound ends before the next origin:
block time 4 and drift 2. -/
def sampleConfigTight : rollup.Config :=
  { SeqWindowSize := 2, BlockTime := 4, MaxSequencerDrift := 2
    DepositContractAddress := 77, FeeRecipientAddress := 88 }

/-- A sample origin, child of `originA`, twelve seconds after it. -/
def originLate : eth.L1BlockRef := { Hash := 15, Number := 3, ParentHash := 11, Time := 112 }

/-- A sample queue with batches in both slots: in the slot of `originA` a
batch for timestamp 108, and in the slot of `originLate` a batch for
timestamp 100. After the L2 timestamp 96 the time bounds are 100 and 104, so
only the batch of the second slot lies inside them, while the fill runs to
112. -/
def sampleQueueTwoSlots : BatchQueue :=
  { inputs := [{ Origin := originA, Batches := [{ Timestamp := 108, Transactions := [[6]] }] },
               { Origin := originLate
                 Batches := [{ Timestamp := 100, Transactions := [[5]] }] }]
    last := sampleHead, config := sampleConfigTight }

/-- The attributes derived from `sampleQueueTwoSlots` with
`sampleCollaborators` after the L2 timestamp 96. -/
def sampleAttributesTwoSlots : List eth.PayloadAttributes :=
  [{ Timestamp := 100, PrevRandao := 1011, SuggestedFeeRecipient := 88
     Transactions := [[1, 0], [0xDE], [5]], NoTxPool := true },
   { Timestamp := 104, PrevRandao := 1011, SuggestedFeeRecipient := 88
     Transactions := [[1, 1]], NoTxPool := true },
   { Timestamp := 108, PrevRandao := 1011, SuggestedFeeRecipient := 88
     Transactions := [[1, 2]], NoTxPool := true }]

/-! ## Consolidation checker: lemmas on the transaction loop -/

theorem matchTransactions_eq_none_iff (blockTxs : List eth.Data) :
    ∀ (txs : List eth.Data) (i : Nat),
      matchTransactions blockTxs i txs = .returned none ↔
        ∀ k, k < txs.length → blockTxs[i + k]? = txs[k]? := by
  intro txs
  induction txs with
  | nil => intro i; simp [matchTransactions]
  | cons otx rest ih =>
    intro i
    unfold matchTransactions
    cases hb : blockTxs[i]? with
    | none =>
      simp only [false_iff, reduceCtorEq]
      intro h
      have h0 := h 0 (by simp)
      simp [hb] at h0
    | some expect =>
      by_cases hne : otx = expect
      · subst hne
        simp only [ne_eq, not_true_eq_false, ↓reduceIte, ih (i + 1)]
        constructor
        · intro h k hk
          cases k with
          | zero => simpa using hb
          | succ k =>
            have := h k (by simpa using hk)
            simpa [Nat.add_assoc, Nat.add_comm 1 k] using this
        · intro h k hk
          have := h (k + 1) (by simpa using hk)
          simpa [Nat.add_assoc, Nat.add_comm 1 k] using this
      · simp only [ne_eq, hne, not_false_eq_true, ↓reduceIte, Ret.returned.injEq,
          reduceCtorEq, false_iff]
        intro h
        have h0 := h 0 (by simp)
        simp [hb] at h0
        exact hne h0.symm

theorem matchTransactions_first_mismatch (blockTxs : List eth.Data) :
    ∀ (txs : List eth.Data) (i m : Nat) (otx expect : eth.Data),
      (∀ j, j < m → blockTxs[i + j]? = txs[j]?) →
      txs[m]? = some otx → blockTxs[i + m]? = some expect → otx ≠ expect →
      matchTransactions blockTxs i txs = .returned (some (.transaction (i + m) expect otx)) := by
  intro txs
  induction txs with
  | nil => intro i m otx expect _ h; simp at h
  | cons a rest ih =>
    intro i m otx expect hpre ha hb hne
    unfold matchTransactions
    cases m with
    | zero =>
      simp only [List.getElem?_cons_zero, Option.some.injEq] at ha
      subst ha
      simp only [Nat.add_zero] at hb
      simp [hb, hne]
    | succ m =>
      have h0 := hpre 0 (by omega)
      simp only [Nat.add_zero, List.getElem?_cons_zero] at h0
      simp only [h0, ne_eq, not_true_eq_false, ↓reduceIte]
      have := ih (i + 1) m otx expect
        (by
          intro j hj
          have := hpre (j + 1) (by omega)
          simpa [Nat.add_assoc, Nat.add_comm 1 j] using this)
        (by simpa using ha)
        (by simpa [Nat.add_assoc, Nat.add_comm 1 m] using hb) hne
      simpa [Nat.add_assoc, Nat.add_comm 1 m] using this

/-! ## Consolidation checker: success -/

/-- C1: `AttributesMatchBlock` returns nil exactly when the parent hash, the
timestamp and the randao are equal, the two transaction lists have the same
length, and the transactions are byte-for-byte equal at every index. -/
theorem AttributesMatchBlock_nil_iff (attrs : eth.PayloadAttributes) (p : common.Hash)
    (block : eth.ExecutionPayload) :
    AttributesMatchBlock attrs p block = .returned none ↔
      (p = block.ParentHash ∧ attrs.Timestamp = block.Timestamp ∧
        attrs.PrevRandao = block.PrevRandao ∧
        attrs.Transactions.length = block.Transactions.length ∧
        ∀ i, i < attrs.Transactions.length →
          attrs.Transactions[i]? = block.Transactions[i]?) := by
  unfold AttributesMatchBlock
  by_cases h1 : p = block.ParentHash
  · by_cases h2 : attrs.Timestamp = block.Timestamp
    · by_cases h3 : attrs.PrevRandao = block.PrevRandao
      · by_cases h4 : attrs.Transactions.length = block.Transactions.length
        · simp only [ne_eq, h1, h2, h3, h4, not_true_eq_false, ↓reduceIte, true_and,
            matchTransactions_eq_none_iff, Nat.zero_add]
          constructor
          · intro h i hi; exact (h i (h4 ▸ hi)).symm
          · intro h i hi; exact (h i (h4 ▸ hi)).symm
        · simp [h1, h2, h3, h4]
      · simp [h1, h2, h3]
    · simp [h1, h2]
  · simp [h1]

/-! ## Batch queue: `AddOrigin` -/

theorem lastOrigin_nil (bq : BatchQueue) (h : bq.inputs = []) :
    bq.lastOrigin = bq.last.L1Origin := by
  simp [BatchQueue.lastOrigin, h]

theorem lastOrigin_append (bq : BatchQueue) (pre : List BatchesWithOrigin)
    (e : BatchesWithOrigin) (h : bq.inputs = pre ++ [e]) :
    bq.lastOrigin = e.Origin.ID := by
  simp [BatchQueue.lastOrigin, h]

/-- C2: `AddOrigin(o)` returns an error exactly when `o.ParentHash` differs
from the hash of the last-known origin, which is the origin of the last
buffered slot when the window is non-empty and `last.L1Origin` otherwise; a
failed call leaves the queue as it was, so any following `AddOrigin` behaves
as if the failed call had not been made. -/
theorem AddOrigin_error_iff (bq : BatchQueue) (o : eth.L1BlockRef) :
    (bq.inputs = [] →
      ((bq.AddOrigin o).1 ≠ none ↔ o.ParentHash ≠ bq.last.L1Origin.Hash)) ∧
    (∀ pre e, bq.inputs = pre ++ [e] →
      ((bq.AddOrigin o).1 ≠ none ↔ o.ParentHash ≠ e.Origin.Hash)) ∧
    ((bq.AddOrigin o).1 ≠ none →
      (bq.AddOrigin o).2 = bq ∧
      ∀ o2, (bq.AddOrigin o).2.AddOrigin o2 = bq.AddOrigin o2) := by
  refine ⟨?_, ?_, ?_⟩
  · intro h
    unfold BatchQueue.AddOrigin
    rw [lastOrigin_nil bq h]
    by_cases hp : bq.last.L1Origin.Hash = o.ParentHash
    · simp [hp]
    · simp [hp, Ne.symm hp]
  · intro pre e h
    unfold BatchQueue.AddOrigin
    rw [lastOrigin_append bq pre e h]
    by_cases hp : e.Origin.ID.Hash = o.ParentHash
    · simp only [ne_eq, hp, not_true_eq_false, ↓reduceIte]
      simp only [eth.L1BlockRef.ID] at hp
      simp [hp]
    · simp only [ne_eq, hp, not_false_eq_true, ↓reduceIte]
      simp only [eth.L1BlockRef.ID] at hp
      simp [Ne.symm hp]
  · intro herr
    have hbq : (bq.AddOrigin o).2 = bq := by
      unfold BatchQueue.AddOrigin at herr ⊢
      by_cases hp : bq.lastOrigin.Hash = o.ParentHash
      · simp [hp] at herr
      · simp [hp]
    exact ⟨hbq, fun o2 => by rw [hbq]⟩

/-- Witness of C2: on the empty sample queue, `originX` is rejected, the
queue is unchanged and `originA` is then accepted as on the original queue. -/
theorem AddOrigin_error_iff_witness :
    (sampleEmpty.AddOrigin originX).1 ≠ none ∧
    (sampleEmpty.AddOrigin originX).2 = sampleEmpty ∧
    (sampleEmpty.AddOrigin originX).2.AddOrigin originA = sampleEmpty.AddOrigin originA ∧
    (sampleEmpty.AddOrigin originA).1 = none :=
  ⟨by decide,
   ((AddOrigin_error_iff sampleEmpty originX).2.2 (by decide)).1,
   ((AddOrigin_error_iff sampleEmpty originX).2.2 (by decide)).2 originA,
   by decide⟩

/-! ## Batch queue: the window checks of `DeriveL2Inputs` -/

/-- C3: when the window is empty or holds fewer origins than `SeqWindowSize`,
`DeriveL2Inputs` returns an error and no attributes, does not fault, makes no
fetch, logs nothing and leaves the queue unchanged. -/
theorem DeriveL2Inputs_short_window {L1Info Receipts : Type}
    (c : Collaborators L1Info Receipts) (bq : BatchQueue) (lastL2Timestamp : Nat)
    (h : bq.inputs.length = 0 ∨ bq.inputs.length < bq.config.SeqWindowSize) :
    bq.DeriveL2Inputs c lastL2Timestamp =
      { ret := .returned ([], some
          (if bq.inputs.length = 0 then .emptyBatchQueue else .windowNotFull))
        fetched := [], logged := [], bq := bq } := by
  unfold BatchQueue.DeriveL2Inputs
  by_cases h0 : bq.inputs.length = 0
  · simp [h0]
  · have h1 : bq.inputs.length < bq.config.SeqWindowSize := by
      cases h with
      | inl h => exact absurd h h0
      | inr h => exact h
    simp [h0, h1]

/-- Witness of C3: a window of one origin under a sequencing window of two. -/
theorem DeriveL2Inputs_short_window_witness :
    (sampleEmpty.AddOrigin originA).2.DeriveL2Inputs sampleCollaborators 98 =
      { ret := .returned ([], some .windowNotFull)
        fetched := [], logged := [], bq := (sampleEmpty.AddOrigin originA).2 } :=
  DeriveL2Inputs_short_window sampleCollaborators (sampleEmpty.AddOrigin originA).2 98
    (Or.inr (by decide))

/-- C4: with exactly one buffered origin and `SeqWindowSize` at most one,
both window checks pass and the read of `bq.inputs[1]` faults: no second
origin exists, nothing is fetched and no attributes are derived. -/
theorem DeriveL2Inputs_single_origin_faults {L1Info Receipts : Type}
    (c : Collaborators L1Info Receipts) (bq : BatchQueue) (lastL2Timestamp : Nat)
    (hlen : bq.inputs.length = 1) (hwin : bq.config.SeqWindowSize ≤ 1) :
    ¬ (bq.inputs.length = 0) ∧ ¬ (bq.inputs.length < bq.config.SeqWindowSize) ∧
    bq.inputs[1]? = none ∧
    bq.DeriveL2Inputs c lastL2Timestamp =
      { ret := .faulted, fetched := [], logged := [], bq := bq } := by
  have h1 : bq.inputs[1]? = none := by
    rw [List.getElem?_eq_none_iff]; omega
  refine ⟨by omega, by omega, h1, ?_⟩
  unfold BatchQueue.DeriveL2Inputs
  have h0 : ¬ (bq.inputs.length = 0) := by omega
  have hw : ¬ (bq.inputs.length < bq.config.SeqWindowSize) := by omega
  simp only [h0, hw, ↓reduceIte, h1]
  cases bq.inputs[0]? <;> rfl

/-- Witness of C4: the sample queue with one origin and `SeqWindowSize = 1`. -/
theorem DeriveL2Inputs_single_origin_faults_witness :
    sampleQueueOne.config.SeqWindowSize = 1 ∧ sampleQueueOne.inputs.length = 1 ∧
    (sampleQueueOne.DeriveL2Inputs sampleCollaborators 98).ret = .faulted :=
  ⟨rfl, rfl, by
    rw [(DeriveL2Inputs_single_origin_faults sampleCollaborators sampleQueueOne 98
      rfl (by decide)).2.2.2]⟩

/-! ## Batch queue: the attribute loop of `DeriveL2Inputs` -/

theorem buildAttributes_ok {L1Info Receipts : Type} (c : Collaborators L1Info Receipts)
    (config : rollup.Config) (l1Info : L1Info) (deposits : List eth.Data) :
    ∀ (batches : List BatchData) (i : Nat) (acc attributes : List eth.PayloadAttributes),
      buildAttributes c config l1Info deposits i batches acc = .ok attributes →
      attributes.length = acc.length + batches.length ∧
      (∀ k, k < acc.length → attributes[k]? = acc[k]?) ∧
      ∀ k batch, batches[k]? = some batch →
        ∃ l1InfoTx, c.L1InfoDepositBytes (i + k) l1Info = .ok l1InfoTx ∧
          attributes[acc.length + k]? =
            some (attributesAt c config l1Info deposits (i + k) batch l1InfoTx) := by
  intro batches
  induction batches with
  | nil =>
    intro i acc attributes h
    simp only [buildAttributes, Except.ok.injEq] at h
    subst h
    simp
  | cons b rest ih =>
    intro i acc attributes h
    unfold buildAttributes at h
    cases htx : c.L1InfoDepositBytes i l1Info with
    | error e => simp [htx] at h
    | ok tx =>
      simp only [htx] at h
      obtain ⟨hlen, hacc, hrest⟩ := ih (i + 1) _ attributes h
      refine ⟨by simp at hlen; simp; omega, ?_, ?_⟩
      · intro k hk
        rw [hacc k (by simp; omega), List.getElem?_append_left hk]
      · intro k batch hk
        cases k with
        | zero =>
          simp only [List.getElem?_cons_zero, Option.some.injEq] at hk
          subst hk
          refine ⟨tx, by simpa using htx, ?_⟩
          rw [Nat.add_zero, hacc acc.length (by simp)]
          simp only [List.getElem?_concat_length, Option.some.injEq, attributesAt]
          by_cases hi : i = 0 <;> simp [hi]
        | succ k =>
          simp only [List.getElem?_cons_succ] at hk
          obtain ⟨tx2, h1, h2⟩ := hrest k batch hk
          refine ⟨tx2, by simpa [Nat.add_assoc, Nat.add_comm 1 k] using h1, ?_⟩
          simp only [List.length_append, List.length_singleton] at h2
          simpa [Nat.add_assoc, Nat.add_comm 1 k] using h2

theorem buildAttributes_error {L1Info Receipts : Type} (c : Collaborators L1Info Receipts)
    (config : rollup.Config) (l1Info : L1Info) (deposits : List eth.Data) :
    ∀ (batches : List BatchData) (i : Nat) (acc : List eth.PayloadAttributes) (k : Nat)
      (e : GoError),
      k < batches.length → c.L1InfoDepositBytes (i + k) l1Info = .error e →
      ∃ err, buildAttributes c config l1Info deposits i batches acc = .error err := by
  intro batches
  induction batches with
  | nil => intro i acc k e hk; simp at hk
  | cons b rest ih =>
    intro i acc k e hk he
    unfold buildAttributes
    cases htx : c.L1InfoDepositBytes i l1Info with
    | error e2 => exact ⟨e2, rfl⟩
    | ok tx =>
      cases k with
      | zero => simp [htx] at he
      | succ k =>
        exact ih (i + 1) _ k e (by simpa using hk)
          (by simpa [Nat.add_assoc, Nat.add_comm 1 k] using he)

theorem buildAttributes_total {L1Info Receipts : Type} (c : Collaborators L1Info Receipts)
    (config : rollup.Config) (l1Info : L1Info) (deposits : List eth.Data) :
    ∀ (batches : List BatchData) (i : Nat) (acc : List eth.PayloadAttributes),
      (∀ k, k < batches.length → ∃ tx, c.L1InfoDepositBytes (i + k) l1Info = .ok tx) →
      ∃ attributes, buildAttributes c config l1Info deposits i batches acc = .ok attributes := by
  intro batches
  induction batches with
  | nil => intro i acc _; exact ⟨acc, rfl⟩
  | cons b rest ih =>
    intro i acc h
    unfold buildAttributes
    obtain ⟨tx, htx⟩ := h 0 (by simp)
    simp only [Nat.add_zero] at htx
    simp only [htx]
    exact ih (i + 1) _ (fun k hk => by
      have := h (k + 1) (by simpa using hk)
      simpa [Nat.add_assoc, Nat.add_comm 1 k] using this)

/-! ## Batch queue: the paths through `DeriveL2Inputs` -/

theorem DeriveL2Inputs_checks_fail {L1Info Receipts : Type}
    (c : Collaborators L1Info Receipts) (bq : BatchQueue) (lastL2Timestamp : Nat)
    (h : bq.inputs.length = 0 ∨ bq.inputs.length < bq.config.SeqWindowSize) :
    bq.DeriveL2Inputs c lastL2Timestamp =
      { ret := .returned ([], some
          (if bq.inputs.length = 0 then .emptyBatchQueue else .windowNotFull))
        fetched := [], logged := [], bq := bq } := by
  unfold BatchQueue.DeriveL2Inputs
  by_cases h0 : bq.inputs.length = 0
  · simp [h0]
  · have h1 : bq.inputs.length < bq.config.SeqWindowSize := by
      cases h with
      | inl h => exact absurd h h0
      | inr h => exact h
    simp [h0, h1]

theorem DeriveL2Inputs_no_next {L1Info Receipts : Type}
    (c : Collaborators L1Info Receipts) (bq : BatchQueue) (lastL2Timestamp : Nat)
    (h0 : ¬ bq.inputs.length = 0) (hw : ¬ bq.inputs.length < bq.config.SeqWindowSize)
    (h1 : bq.inputs[1]? = none) :
    bq.DeriveL2Inputs c lastL2Timestamp =
      { ret := .faulted, fetched := [], logged := [], bq := bq } := by
  unfold BatchQueue.DeriveL2Inputs
  simp only [h0, hw, ↓reduceIte, h1]
  cases bq.inputs[0]? <;> rfl

theorem DeriveL2Inputs_past_checks {L1Info Receipts : Type}
    (c : Collaborators L1Info Receipts) (bq : BatchQueue) (lastL2Timestamp : Nat)
    (first second : BatchesWithOrigin)
    (hw : ¬ bq.inputs.length < bq.config.SeqWindowSize)
    (h0 : bq.inputs[0]? = some first) (h1 : bq.inputs[1]? = some second) :
    bq.DeriveL2Inputs c lastL2Timestamp =
      match c.Fetch first.Origin.Hash with
      | .error err =>
        { ret := .returned ([], some (.fetchFailed first.Origin err))
          fetched := [first.Origin.Hash], logged := [], bq := bq }
      | .ok (l1Info, receipts) =>
        match buildAttributes c bq.config l1Info
            (c.DeriveDeposits receipts bq.config.DepositContractAddress).1 0
            (derivedBatches c bq first.Origin second.Origin lastL2Timestamp) [] with
        | .error err =>
          { ret := .returned ([], some (.l1InfoTxFailed err))
            fetched := [first.Origin.Hash]
            logged := (c.DeriveDeposits receipts bq.config.DepositContractAddress).2.map
              (fun err => (first.Origin.Hash, err))
            bq := bq }
        | .ok attributes =>
          { ret := .returned (attributes, none)
            fetched := [first.Origin.Hash]
            logged := (c.DeriveDeposits receipts bq.config.DepositContractAddress).2.map
              (fun err => (first.Origin.Hash, err))
            bq := { bq with inputs := bq.inputs.drop 1 } } := by
  have hlen : ¬ bq.inputs.length = 0 := by
    intro h
    rw [List.length_eq_zero] at h
    simp [h] at h0
  unfold BatchQueue.DeriveL2Inputs
  simp only [hlen, hw, ↓reduceIte, h0, h1]

/-- The queue a call of `DeriveL2Inputs` leaves is the queue before, unless
the call returns without error. -/
theorem DeriveL2Inputs_bq_of_not_ok {L1Info Receipts : Type}
    (c : Collaborators L1Info Receipts) (bq : BatchQueue) (lastL2Timestamp : Nat)
    (h : ∀ attributes, (bq.DeriveL2Inputs c lastL2Timestamp).ret ≠ .returned (attributes, none)) :
    (bq.DeriveL2Inputs c lastL2Timestamp).bq = bq := by
  by_cases hs : bq.inputs.length = 0 ∨ bq.inputs.length < bq.config.SeqWindowSize
  · rw [DeriveL2Inputs_checks_fail c bq lastL2Timestamp hs]
  · have h0 : ¬ bq.inputs.length = 0 := fun h => hs (Or.inl h)
    have hw : ¬ bq.inputs.length < bq.config.SeqWindowSize := fun h => hs (Or.inr h)
    cases h1 : bq.inputs[1]? with
    | none => rw [DeriveL2Inputs_no_next c bq lastL2Timestamp h0 hw h1]
    | some second =>
      cases hf : bq.inputs[0]? with
      | none =>
        rw [List.getElem?_eq_none_iff] at hf
        omega
      | some first =>
        have hcall := DeriveL2Inputs_past_checks c bq lastL2Timestamp first second hw hf h1
        rw [hcall] at h ⊢
        cases hfetch : c.Fetch first.Origin.Hash with
        | error err => rfl
        | ok v =>
          obtain ⟨l1Info, receipts⟩ := v
          simp only [hfetch] at h ⊢
          cases hb : buildAttributes c bq.config l1Info
              (c.DeriveDeposits receipts bq.config.DepositContractAddress).1 0
              (derivedBatches c bq first.Origin second.Origin lastL2Timestamp) [] with
          | error err => rfl
          | ok attributes =>
            simp only [hb] at h
            exact absurd rfl (h attributes)

/-- A call of `DeriveL2Inputs` that returns without error passed the window
checks, found the two oldest origins, fetched the info of the oldest and
built the attributes of every derived batch; it evicts the oldest slot. -/
theorem DeriveL2Inputs_ok_inv {L1Info Receipts : Type}
    (c : Collaborators L1Info Receipts) (bq : BatchQueue) (lastL2Timestamp : Nat)
    (attributes : List eth.PayloadAttributes)
    (h : (bq.DeriveL2Inputs c lastL2Timestamp).ret = .returned (attributes, none)) :
    ∃ first second l1Info receipts,
      ¬ bq.inputs.length < bq.config.SeqWindowSize ∧
      bq.inputs[0]? = some first ∧ bq.inputs[1]? = some second ∧
      c.Fetch first.Origin.Hash = .ok (l1Info, receipts) ∧
      buildAttributes c bq.config l1Info
        (c.DeriveDeposits receipts bq.config.DepositContractAddress).1 0
        (derivedBatches c bq first.Origin second.Origin lastL2Timestamp) [] = .ok attributes ∧
      (bq.DeriveL2Inputs c lastL2Timestamp).bq = { bq with inputs := bq.inputs.drop 1 } := by
  by_cases hs : bq.inputs.length = 0 ∨ bq.inputs.length < bq.config.SeqWindowSize
  · rw [DeriveL2Inputs_checks_fail c bq lastL2Timestamp hs] at h
    simp at h
  · have h0 : ¬ bq.inputs.length = 0 := fun h => hs (Or.inl h)
    have hw : ¬ bq.inputs.length < bq.config.SeqWindowSize := fun h => hs (Or.inr h)
    cases h1 : bq.inputs[1]? with
    | none =>
      rw [DeriveL2Inputs_no_next c bq lastL2Timestamp h0 hw h1] at h
      simp at h
    | some second =>
      cases hf : bq.inputs[0]? with
      | none =>
        rw [List.getElem?_eq_none_iff] at hf
        omega
      | some first =>
        have hcall := DeriveL2Inputs_past_checks c bq lastL2Timestamp first second hw hf h1
        rw [hcall] at h ⊢
        cases hfetch : c.Fetch first.Origin.Hash with
        | error err => simp [hfetch] at h
        | ok v =>
          obtain ⟨l1Info, receipts⟩ := v
          simp only [hfetch] at h ⊢
          cases hb : buildAttributes c bq.config l1Info
              (c.DeriveDeposits receipts bq.config.DepositContractAddress).1 0
              (derivedBatches c bq first.Origin second.Origin lastL2Timestamp) [] with
          | error err => simp [hb] at h
          | ok attrs2 =>
            simp only [hb, Ret.returned.injEq, Prod.mk.injEq, and_true] at h
            subst h
            simp only [hb]
            exact ⟨first, second, l1Info, receipts, hw, rfl, rfl, hfetch, hb, trivial⟩

theorem DeriveL2Inputs_error_inv {L1Info Receipts : Type}
    (c : Collaborators L1Info Receipts) (bq : BatchQueue) (lastL2Timestamp : Nat)
    (attributes : List eth.PayloadAttributes) (err : DeriveError)
    (h : (bq.DeriveL2Inputs c lastL2Timestamp).ret = .returned (attributes, some err)) :
    attributes = [] ∧ (bq.DeriveL2Inputs c lastL2Timestamp).bq = bq := by
  refine ⟨?_, DeriveL2Inputs_bq_of_not_ok c bq lastL2Timestamp (fun a ha => by
    rw [ha] at h; simp at h)⟩
  by_cases hs : bq.inputs.length = 0 ∨ bq.inputs.length < bq.config.SeqWindowSize
  · rw [DeriveL2Inputs_checks_fail c bq lastL2Timestamp hs] at h
    simp only [Ret.returned.injEq, Prod.mk.injEq] at h
    exact h.1.symm
  · have h0 : ¬ bq.inputs.length = 0 := fun h => hs (Or.inl h)
    have hw : ¬ bq.inputs.length < bq.config.SeqWindowSize := fun h => hs (Or.inr h)
    cases h1 : bq.inputs[1]? with
    | none =>
      rw [DeriveL2Inputs_no_next c bq lastL2Timestamp h0 hw h1] at h
      simp at h
    | some second =>
      cases hf : bq.inputs[0]? with
      | none =>
        rw [List.getElem?_eq_none_iff] at hf
        omega
      | some first =>
        rw [DeriveL2Inputs_past_checks c bq lastL2Timestamp first second hw hf h1] at h
        cases hfetch : c.Fetch first.Origin.Hash with
        | error e =>
          simp only [hfetch, Ret.returned.injEq, Prod.mk.injEq] at h
          exact h.1.symm
        | ok v =>
          obtain ⟨l1Info, receipts⟩ := v
          simp only [hfetch] at h
          cases hb : buildAttributes c bq.config l1Info
              (c.DeriveDeposits receipts bq.config.DepositContractAddress).1 0
              (derivedBatches c bq first.Origin second.Origin lastL2Timestamp) [] with
          | error e =>
            simp only [hb, Ret.returned.injEq, Prod.mk.injEq] at h
            exact h.1.symm
          | ok attrs2 => simp [hb] at h

theorem DeriveL2Inputs_fetched_inv {L1Info Receipts : Type}
    (c : Collaborators L1Info Receipts) (bq : BatchQueue) (lastL2Timestamp : Nat)
    (blockHash : common.Hash)
    (h : blockHash ∈ (bq.DeriveL2Inputs c lastL2Timestamp).fetched) :
    ∃ first second, ¬ bq.inputs.length < bq.config.SeqWindowSize ∧
      bq.inputs[0]? = some first ∧ bq.inputs[1]? = some second ∧
      blockHash = first.Origin.Hash := by
  by_cases hs : bq.inputs.length = 0 ∨ bq.inputs.length < bq.config.SeqWindowSize
  · rw [DeriveL2Inputs_checks_fail c bq lastL2Timestamp hs] at h
    simp at h
  · have h0 : ¬ bq.inputs.length = 0 := fun h => hs (Or.inl h)
    have hw : ¬ bq.inputs.length < bq.config.SeqWindowSize := fun h => hs (Or.inr h)
    cases h1 : bq.inputs[1]? with
    | none =>
      rw [DeriveL2Inputs_no_next c bq lastL2Timestamp h0 hw h1] at h
      simp at h
    | some second =>
      cases hf : bq.inputs[0]? with
      | none =>
        rw [List.getElem?_eq_none_iff] at hf
        omega
      | some first =>
        rw [DeriveL2Inputs_past_checks c bq lastL2Timestamp first second hw hf h1] at h
        refine ⟨first, second, hw, rfl, rfl, ?_⟩
        cases hfetch : c.Fetch first.Origin.Hash with
        | error e => simpa [hfetch] using h
        | ok v =>
          obtain ⟨l1Info, receipts⟩ := v
          simp only [hfetch] at h
          cases hb : buildAttributes c bq.config l1Info
              (c.DeriveDeposits receipts bq.config.DepositContractAddress).1 0
              (derivedBatches c bq first.Origin second.Origin lastL2Timestamp) [] with
          | error e => simpa [hb] using h
          | ok attrs2 => simpa [hb] using h

/-! ## Batch queue: failure of `DeriveL2Inputs` -/

/-- C5: whenever `DeriveL2Inputs` returns an error it returns no attributes
and leaves the queue (window, head, configuration) as it was, so a later call
from that state gives exactly what a call from the state before gives; a
fetch that was made and failed makes the call return that error; and an
L1-info transaction that fails at some index of the derived batches makes the
call return an error, with the queue unchanged. -/
theorem DeriveL2Inputs_failure_atomic {L1Info Receipts : Type}
    (c : Collaborators L1Info Receipts) (bq : BatchQueue) (lastL2Timestamp : Nat) :
    (∀ attributes err,
      (bq.DeriveL2Inputs c lastL2Timestamp).ret = .returned (attributes, some err) →
      attributes = [] ∧ (bq.DeriveL2Inputs c lastL2Timestamp).bq = bq ∧
      ∀ (c2 : Collaborators L1Info Receipts) (t2 : Nat),
        (bq.DeriveL2Inputs c lastL2Timestamp).bq.DeriveL2Inputs c2 t2 =
          bq.DeriveL2Inputs c2 t2) ∧
    (∀ blockHash e, blockHash ∈ (bq.DeriveL2Inputs c lastL2Timestamp).fetched →
      c.Fetch blockHash = .error e →
      ∃ l1Origin, (bq.DeriveL2Inputs c lastL2Timestamp).ret =
          .returned ([], some (.fetchFailed l1Origin e)) ∧
        (bq.DeriveL2Inputs c lastL2Timestamp).bq = bq) ∧
    (∀ first second l1Info receipts i e,
      ¬ bq.inputs.length < bq.config.SeqWindowSize →
      bq.inputs[0]? = some first → bq.inputs[1]? = some second →
      c.Fetch first.Origin.Hash = .ok (l1Info, receipts) →
      i < (derivedBatches c bq first.Origin second.Origin lastL2Timestamp).length →
      c.L1InfoDepositBytes i l1Info = .error e →
      ∃ err, (bq.DeriveL2Inputs c lastL2Timestamp).ret =
          .returned ([], some (.l1InfoTxFailed err)) ∧
        (bq.DeriveL2Inputs c lastL2Timestamp).bq = bq) := by
  refine ⟨?_, ?_, ?_⟩
  · intro attributes err h
    obtain ⟨ha, hbq⟩ := DeriveL2Inputs_error_inv c bq lastL2Timestamp attributes err h
    exact ⟨ha, hbq, fun c2 t2 => by rw [hbq]⟩
  · intro blockHash e hmem hfail
    obtain ⟨first, second, hw, hf, h1, rfl⟩ :=
      DeriveL2Inputs_fetched_inv c bq lastL2Timestamp blockHash hmem
    rw [DeriveL2Inputs_past_checks c bq lastL2Timestamp first second hw hf h1]
    simp only [hfail]
    exact ⟨first.Origin, rfl, trivial⟩
  · intro first second l1Info receipts i e hw hf h1 hfetch hi hfail
    rw [DeriveL2Inputs_past_checks c bq lastL2Timestamp first second hw hf h1]
    simp only [hfetch]
    obtain ⟨err, herr⟩ := buildAttributes_error c bq.config l1Info
      (c.DeriveDeposits receipts bq.config.DepositContractAddress).1
      (derivedBatches c bq first.Origin second.Origin lastL2Timestamp) 0 [] i e hi
      (by simpa using hfail)
    simp only [herr]
    exact ⟨err, rfl, trivial⟩

/-- Witness of C5: on the sample queue a failing fetch gives an error and
the same queue, and so does an L1-info transaction failing at index 1; a
retry with working collaborators then gives what a first call gives. -/
theorem DeriveL2Inputs_failure_atomic_witness :
    (∃ l1Origin, (sampleQueue.DeriveL2Inputs sampleFetchFails 98).ret =
        .returned ([], some (.fetchFailed l1Origin "timeout")) ∧
      (sampleQueue.DeriveL2Inputs sampleFetchFails 98).bq = sampleQueue) ∧
    (∃ err, (sampleQueue.DeriveL2Inputs sampleInfoFails 98).ret =
        .returned ([], some (.l1InfoTxFailed err)) ∧
      (sampleQueue.DeriveL2Inputs sampleInfoFails 98).bq = sampleQueue) ∧
    (sampleQueue.DeriveL2Inputs sampleFetchFails 98).bq.DeriveL2Inputs sampleCollaborators 98 =
      sampleQueue.DeriveL2Inputs sampleCollaborators 98 :=
  ⟨(DeriveL2Inputs_failure_atomic sampleFetchFails sampleQueue 98).2.1 11 "timeout"
      (by decide) rfl,
   (DeriveL2Inputs_failure_atomic sampleInfoFails sampleQueue 98).2.2
      ⟨originA, [{ Timestamp := 102, Transactions := [[7]] }]⟩ ⟨originB, []⟩ 1011 11 1 "encode"
      (by decide) rfl rfl rfl (by decide) rfl,
   ((DeriveL2Inputs_failure_atomic sampleFetchFails sampleQueue 98).1 []
      (.fetchFailed originA "timeout") rfl).2.2 sampleCollaborators 98⟩

/-! ## Batch queue: the attributes of a successful `DeriveL2Inputs` -/

/-- C6: a successful `DeriveL2Inputs` returns one attribute per derived batch
(the filtered, then filled list), in the same order, and attribute `i` has as
transactions the L1-info transaction of index `i` built from the fetched info
of the oldest origin, then the extracted deposits exactly when `i = 0`, then
the transactions of batch `i`. -/
theorem DeriveL2Inputs_attributes {L1Info Receipts : Type}
    (c : Collaborators L1Info Receipts) (bq : BatchQueue) (lastL2Timestamp : Nat)
    (attributes : List eth.PayloadAttributes)
    (h : (bq.DeriveL2Inputs c lastL2Timestamp).ret = .returned (attributes, none)) :
    ∃ first second l1Info receipts,
      bq.inputs[0]? = some first ∧ bq.inputs[1]? = some second ∧
      c.Fetch first.Origin.Hash = .ok (l1Info, receipts) ∧
      attributes.length =
        (derivedBatches c bq first.Origin second.Origin lastL2Timestamp).length ∧
      ∀ i batch,
        (derivedBatches c bq first.Origin second.Origin lastL2Timestamp)[i]? = some batch →
        ∃ l1InfoTx attrs, c.L1InfoDepositBytes i l1Info = .ok l1InfoTx ∧
          attributes[i]? = some attrs ∧
          attrs.Transactions = [l1InfoTx] ++
            (if i = 0 then (c.DeriveDeposits receipts bq.config.DepositContractAddress).1
              else []) ++ batch.Transactions := by
  obtain ⟨first, second, l1Info, receipts, _, hf, h1, hfetch, hb, _⟩ :=
    DeriveL2Inputs_ok_inv c bq lastL2Timestamp attributes h
  obtain ⟨hlen, _, hat⟩ := buildAttributes_ok c bq.config l1Info _ _ 0 [] attributes hb
  refine ⟨first, second, l1Info, receipts, hf, h1, hfetch, by simpa using hlen, ?_⟩
  intro i batch hi
  obtain ⟨tx, htx, ha⟩ := hat i batch hi
  simp only [Nat.zero_add, List.length_nil] at htx ha
  exact ⟨tx, _, htx, ha, rfl⟩

/-- Witness of C6: the two attributes derived from the sample queue. -/
theorem DeriveL2Inputs_attributes_witness :
    ∃ first second l1Info receipts,
      sampleQueue.inputs[0]? = some first ∧ sampleQueue.inputs[1]? = some second ∧
      sampleCollaborators.Fetch first.Origin.Hash = .ok (l1Info, receipts) ∧
      sampleAttributes.length =
        (derivedBatches sampleCollaborators sampleQueue first.Origin second.Origin 98).length ∧
      ∀ i batch,
        (derivedBatches sampleCollaborators sampleQueue first.Origin second.Origin 98)[i]? =
          some batch →
        ∃ l1InfoTx attrs, sampleCollaborators.L1InfoDepositBytes i l1Info = .ok l1InfoTx ∧
          sampleAttributes[i]? = some attrs ∧
          attrs.Transactions = [l1InfoTx] ++
            (if i = 0 then
              (sampleCollaborators.DeriveDeposits receipts
                sampleQueue.config.DepositContractAddress).1
              else []) ++ batch.Transactions :=
  DeriveL2Inputs_attributes sampleCollaborators sampleQueue 98 sampleAttributes (by decide)

/-! ## Batch queue: eviction -/

/-- C9: a successful `DeriveL2Inputs` removes exactly the oldest slot: the
window before is the oldest slot followed by the window after, so every
remaining slot keeps its origin and batches in order, and the recorded head
and the configuration are unchanged. -/
theorem DeriveL2Inputs_evicts_oldest {L1Info Receipts : Type}
    (c : Collaborators L1Info Receipts) (bq : BatchQueue) (lastL2Timestamp : Nat)
    (attributes : List eth.PayloadAttributes)
    (h : (bq.DeriveL2Inputs c lastL2Timestamp).ret = .returned (attributes, none)) :
    (∃ oldest, bq.inputs = oldest :: (bq.DeriveL2Inputs c lastL2Timestamp).bq.inputs) ∧
    (bq.DeriveL2Inputs c lastL2Timestamp).bq.last = bq.last ∧
    (bq.DeriveL2Inputs c lastL2Timestamp).bq.config = bq.config := by
  obtain ⟨first, second, l1Info, receipts, _, hf, _, _, _, hbq⟩ :=
    DeriveL2Inputs_ok_inv c bq lastL2Timestamp attributes h
  rw [hbq]
  refine ⟨⟨first, ?_⟩, rfl, rfl⟩
  cases hin : bq.inputs with
  | nil => simp [hin] at hf
  | cons a rest =>
    simp only [hin, List.getElem?_cons_zero, Option.some.injEq] at hf
    simp [hf]

/-- Witness of C9: deriving from the sample queue leaves the slot of `originB`. -/
theorem DeriveL2Inputs_evicts_oldest_witness :
    (∃ oldest, sampleQueue.inputs =
      oldest :: (sampleQueue.DeriveL2Inputs sampleCollaborators 98).bq.inputs) ∧
    (sampleQueue.DeriveL2Inputs sampleCollaborators 98).bq.last = sampleQueue.last ∧
    (sampleQueue.DeriveL2Inputs sampleCollaborators 98).bq.config = sampleQueue.config :=
  DeriveL2Inputs_evicts_oldest sampleCollaborators sampleQueue 98 sampleAttributes (by decide)

/-! ## Consolidation checker: order of the checks -/

/-- C10: `AttributesMatchBlock` checks parent hash, timestamp, randao,
transaction count, then the transactions by increasing index, and returns the
error of the first check that fails; when the four fields match, the error
names the smallest index at which the two transactions differ. -/
theorem AttributesMatchBlock_first_failing_check (attrs : eth.PayloadAttributes)
    (p : common.Hash) (block : eth.ExecutionPayload) :
    (p ≠ block.ParentHash →
      AttributesMatchBlock attrs p block =
        .returned (some (.parentHash p block.ParentHash))) ∧
    (p = block.ParentHash → attrs.Timestamp ≠ block.Timestamp →
      AttributesMatchBlock attrs p block =
        .returned (some (.timestamp attrs.Timestamp block.Timestamp))) ∧
    (p = block.ParentHash → attrs.Timestamp = block.Timestamp →
      attrs.PrevRandao ≠ block.PrevRandao →
      AttributesMatchBlock attrs p block =
        .returned (some (.random attrs.PrevRandao block.PrevRandao))) ∧
    (p = block.ParentHash → attrs.Timestamp = block.Timestamp →
      attrs.PrevRandao = block.PrevRandao →
      attrs.Transactions.length ≠ block.Transactions.length →
      AttributesMatchBlock attrs p block =
        .returned (some (.txCount attrs.Transactions.length block.Transactions))) ∧
    (p = block.ParentHash → attrs.Timestamp = block.Timestamp →
      attrs.PrevRandao = block.PrevRandao →
      attrs.Transactions.length = block.Transactions.length →
      ∀ i otx expect, attrs.Transactions[i]? = some otx →
        block.Transactions[i]? = some expect → otx ≠ expect →
        (∀ j, j < i → attrs.Transactions[j]? = block.Transactions[j]?) →
        AttributesMatchBlock attrs p block =
          .returned (some (.transaction i expect otx))) := by
  refine ⟨?_, ?_, ?_, ?_, ?_⟩
  · intro h1
    simp [AttributesMatchBlock, h1]
  · intro h1 h2
    simp [AttributesMatchBlock, h1, h2]
  · intro h1 h2 h3
    simp [AttributesMatchBlock, h1, h2, h3]
  · intro h1 h2 h3 h4
    simp [AttributesMatchBlock, h1, h2, h3, h4]
  · intro h1 h2 h3 h4 i otx expect ha hb hne hpre
    have := matchTransactions_first_mismatch block.Transactions attrs.Transactions 0 i
      otx expect (fun j hj => by simpa using (hpre j hj).symm) ha (by simpa using hb) hne
    simpa [AttributesMatchBlock, h1, h2, h3, h4] using this

/-- Witness of C10: two lists that differ at indices 1 and 2 report index 1,
and a timestamp mismatch is reported before a transaction mismatch. -/
theorem AttributesMatchBlock_first_failing_check_witness :
    AttributesMatchBlock ⟨5, 7, 0, [[1], [2], [3]], true⟩ 9 ⟨9, 5, 7, [[1], [4], [5]]⟩ =
      .returned (some (.transaction 1 [4] [2])) ∧
    AttributesMatchBlock ⟨6, 7, 0, [[1], [2], [3]], true⟩ 9 ⟨9, 5, 7, [[1], [4], [5]]⟩ =
      .returned (some (.timestamp 6 5)) :=
  ⟨(AttributesMatchBlock_first_failing_check ⟨5, 7, 0, [[1], [2], [3]], true⟩ 9
      ⟨9, 5, 7, [[1], [4], [5]]⟩).2.2.2.2 rfl rfl rfl rfl 1 [2] [4] rfl rfl (by decide)
      (by decide),
   (AttributesMatchBlock_first_failing_check ⟨6, 7, 0, [[1], [2], [3]], true⟩ 9
      ⟨9, 5, 7, [[1], [4], [5]]⟩).2.1 rfl (by decide)⟩

/-! ## Batch queue: the fill -/

theorem derivedBatches_of_filter_nil {L1Info Receipts : Type}
    (c : Collaborators L1Info Receipts) (bq : BatchQueue)
    (l1Origin nextL1Block : eth.L1BlockRef) (lastL2Timestamp : Nat)
    (hnone : c.FilterBatches bq.config l1Origin.Number (minL2Time bq.config lastL2Timestamp)
      (maxL2Time bq.config l1Origin lastL2Timestamp) (collectBatches bq.inputs) = []) :
    derivedBatches c bq l1Origin nextL1Block lastL2Timestamp =
      c.FillMissingBatches [] l1Origin.Number bq.config.BlockTime
        (minL2Time bq.config lastL2Timestamp) nextL1Block.Time := by
  simp only [derivedBatches, hnone]

theorem FillMissingBatches_nil (epoch blockTime minTime maxTime : Nat) :
    FillMissingBatches [] epoch blockTime minTime maxTime =
      (List.range ((maxTime - minTime) / blockTime)).map
        (fun k => { Timestamp := minTime + k * blockTime, Transactions := [] }) := by
  simp [FillMissingBatches]

/-- C7 as stated fails: on the sample queue without batches, after the L2
timestamp 98, `minL2Time = 100` and `maxL2Time = 110`, so five slots of
`BlockTime = 2` lie between them, and two attributes are derived: the fill is
given the time of the next origin, 104, as its bound. -/
theorem fill_count_counterexample :
    minL2Time sampleQueueNoBatch.config 98 = 100 ∧
    maxL2Time sampleQueueNoBatch.config originA 98 = 110 ∧
    sampleCollaborators.FilterBatches sampleQueueNoBatch.config originA.Number 100 110
      (collectBatches sampleQueueNoBatch.inputs) = [] ∧
    (sampleQueueNoBatch.DeriveL2Inputs sampleCollaborators 98).ret =
      .returned (sampleAttributesNoBatch, none) ∧
    sampleAttributesNoBatch.length = 2 ∧
    0 < sampleQueueNoBatch.config.BlockTime ∧
    minL2Time sampleQueueNoBatch.config 98 + sampleQueueNoBatch.config.BlockTime ≤
      originB.Time ∧
    ¬ (sampleAttributesNoBatch.length =
        (maxL2Time sampleQueueNoBatch.config originA 98 -
          minL2Time sampleQueueNoBatch.config 98) / sampleQueueNoBatch.config.BlockTime) := by
  decide

/-- C7, amended: when `BlockTime` is positive, the origin following the
oldest one has a `Time` of at least `minL2Time + BlockTime`, and no buffered
batch survives filtering, a successful `DeriveL2Inputs` returns exactly
`(nextL1Block.Time - minL2Time) / BlockTime` attributes, at least one, whose
timestamps start at `minL2Time` and increase by `BlockTime`, and which carry
no sequenced transaction: only the L1-info transaction and, in the first, the
deposits. The fill is any function that is as the spec describes it on the
inputs the spec describes; the bound it is given is the time of the next
origin, not `maxL2Time`. -/
theorem DeriveL2Inputs_fill_to_next_origin {L1Info Receipts : Type}
    (c : Collaborators L1Info Receipts) (bq : BatchQueue) (lastL2Timestamp : Nat)
    (attributes : List eth.PayloadAttributes) (first second : BatchesWithOrigin)
    (hfill : fillsAsSpecified c.FillMissingBatches)
    (hbt : 0 < bq.config.BlockTime)
    (hroom : minL2Time bq.config lastL2Timestamp + bq.config.BlockTime ≤ second.Origin.Time)
    (hf : bq.inputs[0]? = some first) (h1 : bq.inputs[1]? = some second)
    (hnone : c.FilterBatches bq.config first.Origin.Number
      (minL2Time bq.config lastL2Timestamp)
      (maxL2Time bq.config first.Origin lastL2Timestamp) (collectBatches bq.inputs) = [])
    (h : (bq.DeriveL2Inputs c lastL2Timestamp).ret = .returned (attributes, none)) :
    attributes.length =
      (second.Origin.Time - minL2Time bq.config lastL2Timestamp) / bq.config.BlockTime ∧
    1 ≤ attributes.length ∧
    ∃ l1Info receipts, c.Fetch first.Origin.Hash = .ok (l1Info, receipts) ∧
      ∀ k, k < attributes.length →
        ∃ l1InfoTx attrs, c.L1InfoDepositBytes k l1Info = .ok l1InfoTx ∧
          attributes[k]? = some attrs ∧
          attrs.Timestamp = minL2Time bq.config lastL2Timestamp + k * bq.config.BlockTime ∧
          attrs.Transactions = [l1InfoTx] ++
            (if k = 0 then (c.DeriveDeposits receipts bq.config.DepositContractAddress).1
              else []) := by
  obtain ⟨first2, second2, l1Info, receipts, _, hf2, h12, hfetch, hb, _⟩ :=
    DeriveL2Inputs_ok_inv c bq lastL2Timestamp attributes h
  rw [hf] at hf2
  rw [h1] at h12
  simp only [Option.some.injEq] at hf2 h12
  subst hf2 h12
  rw [derivedBatches_of_filter_nil c bq first.Origin second.Origin lastL2Timestamp hnone,
    hfill [] first.Origin.Number bq.config.BlockTime (minL2Time bq.config lastL2Timestamp)
      second.Origin.Time hbt hroom,
    FillMissingBatches_nil] at hb
  obtain ⟨hlen, _, hat⟩ := buildAttributes_ok c bq.config l1Info _ _ 0 [] attributes hb
  simp only [List.length_nil, List.length_map, List.length_range, Nat.zero_add] at hlen
  have hone : 1 ≤ attributes.length := by
    rw [hlen, Nat.le_div_iff_mul_le hbt]
    omega
  refine ⟨hlen, hone, l1Info, receipts, hfetch, ?_⟩
  intro k hk
  obtain ⟨tx, htx, ha⟩ := hat k
    { Timestamp := minL2Time bq.config lastL2Timestamp + k * bq.config.BlockTime
      Transactions := [] }
    (by
      rw [List.getElem?_map, List.getElem?_range (by omega)]
      rfl)
  simp only [Nat.zero_add, List.length_nil] at htx ha
  exact ⟨tx, _, htx, ha, rfl, by simp [attributesAt]⟩

/-- Witness of C7 amended: the sample queue without batches, whose next
origin has time 104, gives `(104 - 100) / 2 = 2` attributes. -/
theorem DeriveL2Inputs_fill_to_next_origin_witness :
    sampleAttributesNoBatch.length = (104 - 100) / 2 ∧
    1 ≤ sampleAttributesNoBatch.length ∧
    ∃ l1Info receipts, sampleCollaborators.Fetch originA.Hash = .ok (l1Info, receipts) ∧
      ∀ k, k < sampleAttributesNoBatch.length →
        ∃ l1InfoTx attrs, sampleCollaborators.L1InfoDepositBytes k l1Info = .ok l1InfoTx ∧
          sampleAttributesNoBatch[k]? = some attrs ∧
          attrs.Timestamp = 100 + k * 2 ∧
          attrs.Transactions = [l1InfoTx] ++
            (if k = 0 then (sampleCollaborators.DeriveDeposits receipts 77).1 else []) :=
  DeriveL2Inputs_fill_to_next_origin sampleCollaborators sampleQueueNoBatch 98
    sampleAttributesNoBatch ⟨originA, []⟩ ⟨originB, []⟩
    (fun _ _ _ _ _ _ _ => rfl) (by decide) (by decide) rfl rfl (by decide) (by decide)

/-! ## Batch queue: the window invariant over sequences of calls -/

theorem lastHash_eq_getLast? :
    ∀ (l : List BatchesWithOrigin) (parent : common.Hash),
      lastHash parent l =
        (match l.getLast? with
          | some x => x.Origin.Hash
          | none => parent) := by
  intro l
  induction l with
  | nil => intro parent; rfl
  | cons a rest ih =>
    intro parent
    rw [lastHash, ih a.Origin.Hash, List.getLast?_cons]
    cases rest.getLast? <;> rfl

theorem linked_append (e : BatchesWithOrigin) :
    ∀ (l : List BatchesWithOrigin) (parent : common.Hash),
      linked parent (l ++ [e]) =
        (linked parent l && decide (e.Origin.ParentHash = lastHash parent l)) := by
  intro l
  induction l with
  | nil => intro parent; simp [linked, lastHash]
  | cons a rest ih =>
    intro parent
    show linked parent (a :: (rest ++ [e])) = _
    simp only [linked, lastHash, ih a.Origin.Hash, Bool.and_assoc]

theorem linked_modify (f : BatchesWithOrigin → BatchesWithOrigin)
    (hf : ∀ e, (f e).Origin = e.Origin) :
    ∀ (l : List BatchesWithOrigin) (i : Nat) (parent : common.Hash),
      linked parent (l.modify f i) = linked parent l := by
  intro l
  induction l with
  | nil => intro i parent; simp
  | cons a rest ih =>
    intro i parent
    cases i with
    | zero => simp [linked, hf]
    | succ i =>
      rw [List.modify_succ_cons]
      simp only [linked, ih]

theorem anchored_AddOrigin (bq : BatchQueue) (ev : Option eth.L1BlockRef)
    (origin : eth.L1BlockRef) (h : anchored bq ev) :
    anchored (bq.AddOrigin origin).2 ev := by
  unfold BatchQueue.AddOrigin
  by_cases hp : bq.lastOrigin.Hash = origin.ParentHash
  · simp only [ne_eq, hp, not_true_eq_false, ↓reduceIte]
    refine ⟨?_, fun _ => by simp⟩
    obtain ⟨hl, hne⟩ := h
    have hanchor : anchorHash { bq with inputs := bq.inputs ++ [⟨origin, []⟩] } ev =
        anchorHash bq ev := by
      cases ev <;> rfl
    rw [hanchor, linked_append, hl, lastHash_eq_getLast?]
    simp only [Bool.true_and, decide_eq_true_eq]
    rw [← hp]
    unfold BatchQueue.lastOrigin
    cases hlast : bq.inputs.getLast? with
    | some x => rfl
    | none =>
      have hnil : bq.inputs = [] := List.getLast?_eq_none_iff.mp hlast
      cases ev with
      | none => rfl
      | some e => exact absurd hnil (hne (by simp))
  · simpa [hp] using h

theorem anchored_AddBatch (bq : BatchQueue) (ev : Option eth.L1BlockRef)
    (batch : BatchData) (h : anchored bq ev) :
    anchored (bq.AddBatch batch).2 ev := by
  unfold BatchQueue.AddBatch
  by_cases h0 : bq.inputs.length = 0
  · simpa [h0] using h
  · simp only [h0, ↓reduceIte]
    obtain ⟨hl, hne⟩ := h
    refine ⟨?_, fun _ hnil => h0 ?_⟩
    · have hanchor : ∀ l, anchorHash { bq with inputs := l } ev = anchorHash bq ev := by
        intro l; cases ev <;> rfl
      rw [hanchor]
      show linked (anchorHash bq ev) (List.modify _ _ bq.inputs) = true
      rw [linked_modify (fun e => { e with Batches := e.Batches ++ [batch] })
        (fun e => rfl)]
      exact hl
    · have := congrArg List.length hnil
      simpa using this

theorem anchored_DeriveL2Inputs {L1Info Receipts : Type}
    (c : Collaborators L1Info Receipts) (bq : BatchQueue) (ev : Option eth.L1BlockRef)
    (lastL2Timestamp : Nat) (h : anchored bq ev) :
    anchored (bq.DeriveL2Inputs c lastL2Timestamp).bq
      (Op.evicted bq ev (.deriveL2Inputs c lastL2Timestamp)) := by
  by_cases hok : ∃ attributes,
      (bq.DeriveL2Inputs c lastL2Timestamp).ret = .returned (attributes, none)
  · obtain ⟨attributes, hret⟩ := hok
    obtain ⟨first, second, _, _, _, hf, h1, _, _, hbq⟩ :=
      DeriveL2Inputs_ok_inv c bq lastL2Timestamp attributes hret
    simp only [Op.evicted, hret, hbq]
    cases hin : bq.inputs with
    | nil => simp [hin] at hf
    | cons a rest =>
      simp only [hin, List.getElem?_cons_zero, Option.some.injEq] at hf
      subst hf
      obtain ⟨hl, _⟩ := h
      simp only [hin, linked, Bool.and_eq_true, decide_eq_true_eq] at hl
      simp only [List.head?_cons, List.drop_succ_cons, List.drop_zero]
      refine ⟨hl.2, fun _ hnil => ?_⟩
      simp only at hnil
      simp [hin, hnil] at h1
  · have hbq := DeriveL2Inputs_bq_of_not_ok c bq lastL2Timestamp
      (fun a ha => hok ⟨a, ha⟩)
    have hev : Op.evicted bq ev (.deriveL2Inputs c lastL2Timestamp) = ev := by
      simp only [Op.evicted]
      cases hret : (bq.DeriveL2Inputs c lastL2Timestamp).ret with
      | faulted => rfl
      | returned v =>
        obtain ⟨a, e⟩ := v
        cases e with
        | none => exact absurd ⟨a, hret⟩ hok
        | some e => rfl
    rw [hbq, hev]
    exact h

theorem anchored_step {L1Info Receipts : Type} (bq : BatchQueue)
    (ev : Option eth.L1BlockRef) (op : Op L1Info Receipts) (h : anchored bq ev) :
    anchored (op.apply bq) (op.evicted bq ev) := by
  cases op with
  | addOrigin origin => exact anchored_AddOrigin bq ev origin h
  | addBatch batch => exact anchored_AddBatch bq ev batch h
  | deriveL2Inputs c lastL2Timestamp => exact anchored_DeriveL2Inputs c bq ev lastL2Timestamp h
  | reset head => exact ⟨rfl, fun hne => absurd rfl hne⟩

theorem anchored_run {L1Info Receipts : Type} :
    ∀ (ops : List (Op L1Info Receipts)) (bq : BatchQueue) (ev : Option eth.L1BlockRef),
      anchored bq ev → anchored (run bq ops) (runEvicted bq ev ops) := by
  intro ops
  induction ops with
  | nil => intro bq ev h; exact h
  | cons op ops ih =>
    intro bq ev h
    exact ih (op.apply bq) (op.evicted bq ev) (anchored_step bq ev op h)

/-- C8 as stated fails: after `Reset`, two chained `AddOrigin` calls and a
successful `DeriveL2Inputs`, the window is `[originB]`, whose parent hash 11
is the hash of the evicted `originA`, not the hash 10 of the L1 origin
recorded in the head. -/
theorem windowInvariant_counterexample :
    (run (sampleEmpty.Reset sampleHead)
      [Op.addOrigin originA, .addOrigin originB,
        .deriveL2Inputs sampleCollaborators 98]).inputs = [⟨originB, []⟩] ∧
    (run (sampleEmpty.Reset sampleHead)
      [Op.addOrigin originA, .addOrigin originB,
        .deriveL2Inputs sampleCollaborators 98]).last.L1Origin.Hash = 10 ∧
    originB.ParentHash = 11 ∧
    windowInvariant (run (sampleEmpty.Reset sampleHead)
      [Op.addOrigin originA, .addOrigin originB,
        .deriveL2Inputs sampleCollaborators 98]) = false := by
  decide

/-- C8, amended: in every state reachable from `Reset(head)` by any sequence
of calls, each buffered entry links to the entry before it, and the first
entry links to the origin evicted by the most recent successful
`DeriveL2Inputs` since the last `Reset`, or, when no origin was evicted since
then, to the L1 origin recorded in the last known L2 head; in that second
case the window invariant of the data model holds. -/
theorem run_window_linked {L1Info Receipts : Type} (bq : BatchQueue)
    (head : eth.L2BlockRef) (ops : List (Op L1Info Receipts)) :
    linked
      (anchorHash (run (bq.Reset head) ops) (runEvicted (bq.Reset head) none ops))
      (run (bq.Reset head) ops).inputs = true ∧
    (runEvicted (bq.Reset head) none ops = none →
      windowInvariant (run (bq.Reset head) ops) = true) := by
  have h := (anchored_run ops (bq.Reset head) none
    ⟨rfl, fun hne => absurd rfl hne⟩).1
  refine ⟨h, fun hev => ?_⟩
  rw [hev] at h
  exact h

/-- Witness of C8 amended: after `Reset`, two chained origins and a batch,
nothing was evicted and the window invariant holds. -/
theorem run_window_linked_witness :
    runEvicted (sampleQueue.Reset sampleHead) none
      [(Op.addOrigin originA : Op Nat Nat), .addOrigin originB,
        .addBatch ⟨102, [[7]]⟩] = none ∧
    windowInvariant (run (sampleQueue.Reset sampleHead)
      [(Op.addOrigin originA : Op Nat Nat), .addOrigin originB,
        .addBatch ⟨102, [[7]]⟩]) = true :=
  ⟨rfl, (run_window_linked sampleQueue sampleHead
    [(Op.addOrigin originA : Op Nat Nat), .addOrigin originB,
      .addBatch ⟨102, [[7]]⟩]).2 rfl⟩

/-! ## Batch queue: `AddOrigin` on chained origins -/

theorem AddOrigin_ok (bq : BatchQueue) (o : eth.L1BlockRef)
    (h : bq.lastOrigin.Hash = o.ParentHash) :
    bq.AddOrigin o = (none, { bq with inputs := bq.inputs ++ [⟨o, []⟩] }) := by
  simp [BatchQueue.AddOrigin, h]

theorem AddOrigin_ok_inv (bq : BatchQueue) (o : eth.L1BlockRef)
    (h : (bq.AddOrigin o).1 = none) :
    bq.lastOrigin.Hash = o.ParentHash ∧
    (bq.AddOrigin o).2 = { bq with inputs := bq.inputs ++ [⟨o, []⟩] } := by
  by_cases hp : bq.lastOrigin.Hash = o.ParentHash
  · exact ⟨hp, by rw [AddOrigin_ok bq o hp]⟩
  · simp [BatchQueue.AddOrigin, hp] at h

theorem addOrigins_chained :
    ∀ (origins : List eth.L1BlockRef) (bq : BatchQueue),
      chained bq.lastOrigin.Hash origins = true →
      bq.addOrigins origins =
        (List.replicate origins.length none,
          { bq with inputs := bq.inputs ++ origins.map (fun o => ⟨o, []⟩) }) := by
  intro origins
  induction origins with
  | nil => intro bq _; simp [BatchQueue.addOrigins]
  | cons o os ih =>
    intro bq h
    simp only [chained, Bool.and_eq_true, decide_eq_true_eq] at h
    have hok := AddOrigin_ok bq o h.1.symm
    have hlast : (bq.AddOrigin o).2.lastOrigin.Hash = o.Hash := by
      rw [hok, lastOrigin_append _ bq.inputs ⟨o, []⟩ rfl]
      rfl
    have := ih (bq.AddOrigin o).2 (by rw [hlast]; exact h.2)
    rw [hok] at this
    simp only [BatchQueue.addOrigins, this, hok, List.length_cons, List.replicate_succ,
      List.map_cons, List.append_assoc, List.singleton_append]

/-- C11: a successful `AddOrigin(o)` appends exactly the slot `(o, no
batches)` at the end of the window and changes nothing else; and after
`Reset(h)`, `AddOrigin` on origins that chain from `h.L1Origin.Hash` succeeds
every time and leaves exactly their slots, in order and without batches. -/
theorem AddOrigin_appends_chain (bq : BatchQueue) (h : eth.L2BlockRef) :
    (∀ o, (bq.AddOrigin o).1 = none →
      (bq.AddOrigin o).2 = { bq with inputs := bq.inputs ++ [⟨o, []⟩] }) ∧
    (∀ origins, chained h.L1Origin.Hash origins = true →
      ((bq.Reset h).addOrigins origins).1 = List.replicate origins.length none ∧
      ((bq.Reset h).addOrigins origins).2 =
        { inputs := origins.map (fun o => ⟨o, []⟩), last := h, config := bq.config }) := by
  refine ⟨fun o ho => (AddOrigin_ok_inv bq o ho).2, fun origins hc => ?_⟩
  have := addOrigins_chained origins (bq.Reset h) (by
    rw [lastOrigin_nil _ rfl]; exact hc)
  rw [this]
  exact ⟨rfl, by simp [BatchQueue.Reset]⟩

/-- Witness of C11: three chained origins added to the reset sample queue. -/
theorem AddOrigin_appends_chain_witness :
    (sampleEmpty.AddOrigin originA).2 =
      { sampleEmpty with inputs := sampleEmpty.inputs ++ [⟨originA, []⟩] } ∧
    ((sampleQueue.Reset sampleHead).addOrigins [originA, originB, originC]).1 =
      [none, none, none] ∧
    ((sampleQueue.Reset sampleHead).addOrigins [originA, originB, originC]).2 =
      { inputs := [⟨originA, []⟩, ⟨originB, []⟩, ⟨originC, []⟩]
        last := sampleHead, config := sampleQueue.config } :=
  ⟨(AddOrigin_appends_chain sampleEmpty sampleHead).1 originA (by decide),
   ((AddOrigin_appends_chain sampleQueue sampleHead).2 [originA, originB, originC]
      (by decide)).1,
   ((AddOrigin_appends_chain sampleQueue sampleHead).2 [originA, originB, originC]
      (by decide)).2⟩

/-! ## Batch queue: `AddBatch` -/

theorem modify_last (f : BatchesWithOrigin → BatchesWithOrigin) (e : BatchesWithOrigin) :
    ∀ (pre : List BatchesWithOrigin),
      List.modify f ((pre ++ [e]).length - 1) (pre ++ [e]) = pre ++ [f e] := by
  intro pre
  induction pre with
  | nil => simp
  | cons a rest ih =>
    have hlen : (a :: rest ++ [e]).length - 1 = ((rest ++ [e]).length - 1) + 1 := by
      simp
    rw [hlen]
    show List.modify f (((rest ++ [e]).length - 1) + 1) (a :: (rest ++ [e])) = _
    rw [List.modify_succ_cons, ih]
    rfl

/-- C12: `AddBatch(b)` returns an error exactly when the window is empty, and
then changes nothing; otherwise it appends `b` at the end of the batches of
the last slot and leaves the earlier slots, every origin, the recorded head
and the configuration unchanged. -/
theorem AddBatch_error_iff (bq : BatchQueue) (b : BatchData) :
    ((bq.AddBatch b).1 ≠ none ↔ bq.inputs = []) ∧
    (bq.inputs = [] → (bq.AddBatch b).2 = bq) ∧
    (∀ pre e, bq.inputs = pre ++ [e] →
      bq.AddBatch b =
        (none, { bq with
          inputs := pre ++ [{ Origin := e.Origin, Batches := e.Batches ++ [b] }] })) := by
  refine ⟨?_, ?_, ?_⟩
  · unfold BatchQueue.AddBatch
    by_cases h0 : bq.inputs.length = 0
    · simp [h0, List.length_eq_zero.mp h0]
    · simp only [h0, ↓reduceIte, ne_eq, not_true_eq_false, false_iff]
      exact fun h => h0 (by simp [h])
  · intro h
    simp [BatchQueue.AddBatch, h]
  · intro pre e h
    unfold BatchQueue.AddBatch
    have h0 : ¬ bq.inputs.length = 0 := by simp [h]
    simp only [h0, ↓reduceIte]
    rw [h, modify_last]

/-- Witness of C12: a batch added to the sample queue lands in the slot of
`originB`, and a batch offered to the empty queue is rejected. -/
theorem AddBatch_error_iff_witness :
    (sampleEmpty.AddBatch sampleBatch).2 = sampleEmpty ∧
    sampleQueue.AddBatch sampleBatch =
      (none, { sampleQueue with
        inputs := [⟨originA, [{ Timestamp := 102, Transactions := [[7]] }]⟩] ++
          [{ Origin := originB, Batches := [] ++ [sampleBatch] }] }) :=
  ⟨(AddBatch_error_iff sampleEmpty sampleBatch).2.1 rfl,
   (AddBatch_error_iff sampleQueue sampleBatch).2.2
      [⟨originA, [{ Timestamp := 102, Transactions := [[7]] }]⟩] ⟨originB, []⟩ rfl⟩

/-! ## Batch queue: `Reset` -/

/-- C13: after `Reset(h)` the window is empty and the recorded head is `h`,
whatever was buffered; so `AddBatch` fails, `DeriveL2Inputs` fails with the
empty-queue error, and `AddOrigin(o)` succeeds exactly when
`o.ParentHash = h.L1Origin.Hash`. -/
theorem Reset_clears {L1Info Receipts : Type} (bq : BatchQueue) (h : eth.L2BlockRef)
    (c : Collaborators L1Info Receipts) (lastL2Timestamp : Nat)
    (b : BatchData) (o : eth.L1BlockRef) :
    (bq.Reset h).inputs = [] ∧ (bq.Reset h).last = h ∧
    (bq.Reset h).config = bq.config ∧
    ((bq.Reset h).AddBatch b).1 ≠ none ∧
    ((bq.Reset h).DeriveL2Inputs c lastL2Timestamp).ret =
      .returned ([], some .emptyBatchQueue) ∧
    (((bq.Reset h).AddOrigin o).1 = none ↔ o.ParentHash = h.L1Origin.Hash) := by
  refine ⟨rfl, rfl, rfl, by simp [BatchQueue.AddBatch, BatchQueue.Reset], ?_, ?_⟩
  · rw [DeriveL2Inputs_checks_fail c (bq.Reset h) lastL2Timestamp (Or.inl rfl)]
    rfl
  · unfold BatchQueue.AddOrigin
    rw [lastOrigin_nil _ rfl]
    by_cases hp : h.L1Origin.Hash = o.ParentHash
    · simp [BatchQueue.Reset, hp]
    · simp [BatchQueue.Reset, hp, Ne.symm hp]

/-! ## Batch queue: the time bounds of `DeriveL2Inputs` -/

/-- C14 as stated fails: with `lastL2Timestamp = 2 ^ 64 - 3` and
`BlockTime = 2`, `minL2Time` is `2 ^ 64 - 1`, the sum `minL2Time + BlockTime`
wraps to 1, and `maxL2Time` is 110: it is at least the wrapped sum and lies
below `minL2Time`, so the interval from `minL2Time` to `maxL2Time` is empty. -/
theorem maxL2Time_room_counterexample :
    (18446744073709551613 : Nat) < 2 ^ 64 ∧
    minL2Time sampleConfig 18446744073709551613 = 18446744073709551615 ∧
    addU64 (minL2Time sampleConfig 18446744073709551613) sampleConfig.BlockTime = 1 ∧
    maxL2Time sampleConfig originA 18446744073709551613 = 110 ∧
    maxL2Time sampleConfig originA 18446744073709551613 <
      minL2Time sampleConfig 18446744073709551613 ∧
    ¬ (minL2Time sampleConfig 18446744073709551613 + sampleConfig.BlockTime ≤
        maxL2Time sampleConfig originA 18446744073709551613) := by
  decide

/-- C14, amended: `minL2Time` is the `uint64` sum of `lastL2Timestamp` and
`BlockTime`, `maxL2Time` is the larger of the `uint64` sums
`Time + MaxSequencerDrift` and `minL2Time + BlockTime`, so `maxL2Time` is at
least the `uint64` sum `minL2Time + BlockTime`; and when
`lastL2Timestamp + 2 * BlockTime` is below `2 ^ 64` no sum on the lower bound
wraps, so `maxL2Time` is at least `minL2Time + BlockTime` and the interval
has room for one L2 block time. -/
theorem maxL2Time_bounds (config : rollup.Config) (l1Origin : eth.L1BlockRef)
    (lastL2Timestamp : Nat) :
    minL2Time config lastL2Timestamp = (lastL2Timestamp + config.BlockTime) % 2 ^ 64 ∧
    maxL2Time config l1Origin lastL2Timestamp =
      max ((l1Origin.Time + config.MaxSequencerDrift) % 2 ^ 64)
        ((minL2Time config lastL2Timestamp + config.BlockTime) % 2 ^ 64) ∧
    (minL2Time config lastL2Timestamp + config.BlockTime) % 2 ^ 64 ≤
      maxL2Time config l1Origin lastL2Timestamp ∧
    (lastL2Timestamp + 2 * config.BlockTime < 2 ^ 64 →
      minL2Time config lastL2Timestamp = lastL2Timestamp + config.BlockTime ∧
      minL2Time config lastL2Timestamp + config.BlockTime ≤
        maxL2Time config l1Origin lastL2Timestamp) := by
  have hmax : maxL2Time config l1Origin lastL2Timestamp =
      max ((l1Origin.Time + config.MaxSequencerDrift) % 2 ^ 64)
        ((minL2Time config lastL2Timestamp + config.BlockTime) % 2 ^ 64) := by
    simp only [maxL2Time, addU64]
    split
    · rw [Nat.max_def]; split <;> omega
    · rw [Nat.max_def]; split <;> omega
  have hle : (minL2Time config lastL2Timestamp + config.BlockTime) % 2 ^ 64 ≤
      maxL2Time config l1Origin lastL2Timestamp := by
    rw [hmax]; exact Nat.le_max_right _ _
  refine ⟨rfl, hmax, hle, fun hno => ?_⟩
  have hmin : minL2Time config lastL2Timestamp = lastL2Timestamp + config.BlockTime := by
    simp only [minL2Time, addU64]
    exact Nat.mod_eq_of_lt (by omega)
  refine ⟨hmin, ?_⟩
  have hsum : (minL2Time config lastL2Timestamp + config.BlockTime) % 2 ^ 64 =
      minL2Time config lastL2Timestamp + config.BlockTime := by
    rw [hmin]
    exact Nat.mod_eq_of_lt (by omega)
  rw [hsum] at hle
  exact hle

/-- Witness of C14 amended: the sample configuration after the L2 timestamp 98. -/
theorem maxL2Time_bounds_witness :
    minL2Time sampleConfig 98 = 98 + sampleConfig.BlockTime ∧
    minL2Time sampleConfig 98 + sampleConfig.BlockTime ≤ maxL2Time sampleConfig originA 98 :=
  (maxL2Time_bounds sampleConfig originA 98).2.2.2 (by decide)

/-! ## Batch queue: the fields of the derived attributes -/

/-- C15: every attribute returned by a successful `DeriveL2Inputs` has
`NoTxPool = true`, `PrevRandao` equal to the mix digest of the fetched info of
the oldest origin, `SuggestedFeeRecipient` equal to the configured fee
recipient, and the timestamp of the derived batch of the same index. -/
theorem DeriveL2Inputs_attribute_fields {L1Info Receipts : Type}
    (c : Collaborators L1Info Receipts) (bq : BatchQueue) (lastL2Timestamp : Nat)
    (attributes : List eth.PayloadAttributes)
    (h : (bq.DeriveL2Inputs c lastL2Timestamp).ret = .returned (attributes, none)) :
    ∃ first second l1Info receipts,
      bq.inputs[0]? = some first ∧ bq.inputs[1]? = some second ∧
      c.Fetch first.Origin.Hash = .ok (l1Info, receipts) ∧
      ∀ (i : Nat) (attrs : eth.PayloadAttributes), attributes[i]? = some attrs →
        attrs.NoTxPool = true ∧ attrs.PrevRandao = c.MixDigest l1Info ∧
        attrs.SuggestedFeeRecipient = bq.config.FeeRecipientAddress ∧
        ∃ batch : BatchData,
          (derivedBatches c bq first.Origin second.Origin lastL2Timestamp)[i]? = some batch ∧
          attrs.Timestamp = batch.Timestamp := by
  obtain ⟨first, second, l1Info, receipts, _, hf, h1, hfetch, hb, _⟩ :=
    DeriveL2Inputs_ok_inv c bq lastL2Timestamp attributes h
  obtain ⟨hlen, _, hat⟩ := buildAttributes_ok c bq.config l1Info _ _ 0 [] attributes hb
  refine ⟨first, second, l1Info, receipts, hf, h1, hfetch, ?_⟩
  intro i attrs hi
  have hlt : i < (derivedBatches c bq first.Origin second.Origin lastL2Timestamp).length := by
    have := (List.getElem?_eq_some_iff.mp hi).1
    simp only [List.length_nil, Nat.zero_add] at hlen
    omega
  obtain ⟨tx, _, ha⟩ := hat i _ (List.getElem?_eq_getElem hlt)
  simp only [Nat.zero_add, List.length_nil] at ha
  rw [hi] at ha
  simp only [Option.some.injEq] at ha
  subst ha
  exact ⟨rfl, rfl, rfl, _, List.getElem?_eq_getElem hlt, rfl⟩

/-- Witness of C15: the attributes derived from the sample queue. -/
theorem DeriveL2Inputs_attribute_fields_witness :
    ∃ first second l1Info receipts,
      sampleQueue.inputs[0]? = some first ∧ sampleQueue.inputs[1]? = some second ∧
      sampleCollaborators.Fetch first.Origin.Hash = .ok (l1Info, receipts) ∧
      ∀ (i : Nat) (attrs : eth.PayloadAttributes), sampleAttributes[i]? = some attrs →
        attrs.NoTxPool = true ∧ attrs.PrevRandao = sampleCollaborators.MixDigest l1Info ∧
        attrs.SuggestedFeeRecipient = sampleQueue.config.FeeRecipientAddress ∧
        ∃ batch : BatchData,
          (derivedBatches sampleCollaborators sampleQueue first.Origin second.Origin 98)[i]? =
            some batch ∧
          attrs.Timestamp = batch.Timestamp :=
  DeriveL2Inputs_attribute_fields sampleCollaborators sampleQueue 98 sampleAttributes
    (by decide)

/-! ## Batch queue: what `DeriveL2Inputs` hands to its collaborators -/

theorem foldl_append_batches :
    ∀ (inputs : List BatchesWithOrigin) (init : List BatchData),
      inputs.foldl (fun batches b => batches ++ b.Batches) init =
        init ++ (inputs.map (fun b => b.Batches)).flatten := by
  intro inputs
  induction inputs with
  | nil => intro init; simp
  | cons a rest ih =>
    intro init
    simp only [List.foldl_cons, ih, List.map_cons, List.flatten_cons, List.append_assoc]

theorem collectBatches_eq_flatten (inputs : List BatchesWithOrigin) :
    collectBatches inputs = (inputs.map (fun b => b.Batches)).flatten := by
  simp only [collectBatches, foldl_append_batches, List.nil_append]

theorem buildAttributes_congr {L1Info Receipts : Type}
    (c c2 : Collaborators L1Info Receipts) (config : rollup.Config) (l1Info : L1Info)
    (deposits : List eth.Data) (hinfo : c2.L1InfoDepositBytes = c.L1InfoDepositBytes)
    (hmix : c2.MixDigest = c.MixDigest) :
    ∀ (batches : List BatchData) (i : Nat) (acc : List eth.PayloadAttributes),
      buildAttributes c2 config l1Info deposits i batches acc =
        buildAttributes c config l1Info deposits i batches acc := by
  intro batches
  induction batches with
  | nil => intro i acc; rfl
  | cons b rest ih =>
    intro i acc
    unfold buildAttributes
    rw [hinfo, hmix]
    cases c.L1InfoDepositBytes i l1Info with
    | error e => rfl
    | ok tx => exact ih (i + 1) _

/-- Two sets of collaborators give calls of `DeriveL2Inputs` that differ at
most in the log, when they agree on the fetch, the mix digest, the L1-info
transaction, the extracted deposits and the derived batches. -/
theorem DeriveL2Inputs_congr {L1Info Receipts : Type}
    (c c2 : Collaborators L1Info Receipts) (bq : BatchQueue) (lastL2Timestamp : Nat)
    (hfetch : c2.Fetch = c.Fetch) (hmix : c2.MixDigest = c.MixDigest)
    (hinfo : c2.L1InfoDepositBytes = c.L1InfoDepositBytes)
    (hdep : ∀ r a, (c2.DeriveDeposits r a).1 = (c.DeriveDeposits r a).1)
    (hbatches : ∀ o n, derivedBatches c2 bq o n lastL2Timestamp =
      derivedBatches c bq o n lastL2Timestamp) :
    (bq.DeriveL2Inputs c2 lastL2Timestamp).ret = (bq.DeriveL2Inputs c lastL2Timestamp).ret ∧
    (bq.DeriveL2Inputs c2 lastL2Timestamp).fetched =
      (bq.DeriveL2Inputs c lastL2Timestamp).fetched ∧
    (bq.DeriveL2Inputs c2 lastL2Timestamp).bq = (bq.DeriveL2Inputs c lastL2Timestamp).bq := by
  by_cases hs : bq.inputs.length = 0 ∨ bq.inputs.length < bq.config.SeqWindowSize
  · rw [DeriveL2Inputs_checks_fail c bq lastL2Timestamp hs,
      DeriveL2Inputs_checks_fail c2 bq lastL2Timestamp hs]
    exact ⟨rfl, rfl, rfl⟩
  · have h0 : ¬ bq.inputs.length = 0 := fun h => hs (Or.inl h)
    have hw : ¬ bq.inputs.length < bq.config.SeqWindowSize := fun h => hs (Or.inr h)
    cases h1 : bq.inputs[1]? with
    | none =>
      rw [DeriveL2Inputs_no_next c bq lastL2Timestamp h0 hw h1,
        DeriveL2Inputs_no_next c2 bq lastL2Timestamp h0 hw h1]
      exact ⟨rfl, rfl, rfl⟩
    | some second =>
      cases hf : bq.inputs[0]? with
      | none =>
        rw [List.getElem?_eq_none_iff] at hf
        omega
      | some first =>
        rw [DeriveL2Inputs_past_checks c bq lastL2Timestamp first second hw hf h1,
          DeriveL2Inputs_past_checks c2 bq lastL2Timestamp first second hw hf h1,
          hfetch]
        cases c.Fetch first.Origin.Hash with
        | error err => exact ⟨rfl, rfl, rfl⟩
        | ok v =>
          obtain ⟨l1Info, receipts⟩ := v
          simp only
          rw [hdep, hbatches, buildAttributes_congr c c2 bq.config l1Info _ hinfo hmix]
          cases buildAttributes c bq.config l1Info
              (c.DeriveDeposits receipts bq.config.DepositContractAddress).1 0
              (derivedBatches c bq first.Origin second.Origin lastL2Timestamp) [] with
          | error err => exact ⟨rfl, rfl, rfl⟩
          | ok attributes => exact ⟨rfl, rfl, rfl⟩

theorem derivedBatches_eq {L1Info Receipts : Type}
    (c : Collaborators L1Info Receipts) (bq : BatchQueue)
    (l1Origin nextL1Block : eth.L1BlockRef) (lastL2Timestamp : Nat) :
    derivedBatches c bq l1Origin nextL1Block lastL2Timestamp =
      c.FillMissingBatches
        (c.FilterBatches bq.config l1Origin.Number (minL2Time bq.config lastL2Timestamp)
          (maxL2Time bq.config l1Origin lastL2Timestamp)
          (bq.inputs.map (fun b => b.Batches)).flatten)
        l1Origin.Number bq.config.BlockTime (minL2Time bq.config lastL2Timestamp)
        nextL1Block.Time := by
  simp only [derivedBatches, collectBatches_eq_flatten]

/-- C16: in a call of `DeriveL2Inputs` that is past the window checks and
the fetch, the attributes are built, one per batch and in order, from the
fill of what `FilterBatches` returns for the configuration, the oldest
origin's `Number` as epoch, the bounds `minL2Time` and `maxL2Time`, and as
candidates the batches of every buffered slot in window order, each slot in
arrival order. The call succeeds when every L1-info transaction can be
built, each attribute carries the timestamp and the transactions of its
batch, and the call observes `FilterBatches` at these arguments only: another
filter with the same value there gives the same call. -/
theorem DeriveL2Inputs_filter_candidates {L1Info Receipts : Type}
    (c : Collaborators L1Info Receipts) (bq : BatchQueue) (lastL2Timestamp : Nat)
    (first second : BatchesWithOrigin) (l1Info : L1Info) (receipts : Receipts)
    (hw : ¬ bq.inputs.length < bq.config.SeqWindowSize)
    (hf : bq.inputs[0]? = some first) (h1 : bq.inputs[1]? = some second)
    (hfetch : c.Fetch first.Origin.Hash = .ok (l1Info, receipts)) :
    ((∀ i, i < (c.FillMissingBatches
        (c.FilterBatches bq.config first.Origin.Number (minL2Time bq.config lastL2Timestamp)
          (maxL2Time bq.config first.Origin lastL2Timestamp)
          (bq.inputs.map (fun b => b.Batches)).flatten)
        first.Origin.Number bq.config.BlockTime (minL2Time bq.config lastL2Timestamp)
        second.Origin.Time).length →
        ∃ l1InfoTx, c.L1InfoDepositBytes i l1Info = .ok l1InfoTx) →
      ∃ attributes,
        (bq.DeriveL2Inputs c lastL2Timestamp).ret = .returned (attributes, none)) ∧
    (∀ attributes,
      (bq.DeriveL2Inputs c lastL2Timestamp).ret = .returned (attributes, none) →
      attributes.length = (c.FillMissingBatches
        (c.FilterBatches bq.config first.Origin.Number (minL2Time bq.config lastL2Timestamp)
          (maxL2Time bq.config first.Origin lastL2Timestamp)
          (bq.inputs.map (fun b => b.Batches)).flatten)
        first.Origin.Number bq.config.BlockTime (minL2Time bq.config lastL2Timestamp)
        second.Origin.Time).length ∧
      ∀ (i : Nat) (batch : BatchData), (c.FillMissingBatches
        (c.FilterBatches bq.config first.Origin.Number (minL2Time bq.config lastL2Timestamp)
          (maxL2Time bq.config first.Origin lastL2Timestamp)
          (bq.inputs.map (fun b => b.Batches)).flatten)
        first.Origin.Number bq.config.BlockTime (minL2Time bq.config lastL2Timestamp)
        second.Origin.Time)[i]? = some batch →
        ∃ (attrs : eth.PayloadAttributes) (l1InfoTx : eth.Data),
          attributes[i]? = some attrs ∧ attrs.Timestamp = batch.Timestamp ∧
          attrs.Transactions = [l1InfoTx] ++
            (if i = 0 then (c.DeriveDeposits receipts bq.config.DepositContractAddress).1
              else []) ++ batch.Transactions) ∧
    (∀ filter2 : rollup.Config → Nat → Nat → Nat → List BatchData → List BatchData,
      filter2 bq.config first.Origin.Number (minL2Time bq.config lastL2Timestamp)
          (maxL2Time bq.config first.Origin lastL2Timestamp)
          (bq.inputs.map (fun b => b.Batches)).flatten =
        c.FilterBatches bq.config first.Origin.Number (minL2Time bq.config lastL2Timestamp)
          (maxL2Time bq.config first.Origin lastL2Timestamp)
          (bq.inputs.map (fun b => b.Batches)).flatten →
      bq.DeriveL2Inputs { c with FilterBatches := filter2 } lastL2Timestamp =
        bq.DeriveL2Inputs c lastL2Timestamp) := by
  have hcall := DeriveL2Inputs_past_checks c bq lastL2Timestamp first second hw hf h1
  simp only [hfetch, derivedBatches_eq] at hcall
  refine ⟨?_, ?_, ?_⟩
  · intro htotal
    obtain ⟨attributes, hb⟩ := buildAttributes_total c bq.config l1Info
      (c.DeriveDeposits receipts bq.config.DepositContractAddress).1 (c.FillMissingBatches
        (c.FilterBatches bq.config first.Origin.Number (minL2Time bq.config lastL2Timestamp)
          (maxL2Time bq.config first.Origin lastL2Timestamp)
          (bq.inputs.map (fun b => b.Batches)).flatten)
        first.Origin.Number bq.config.BlockTime (minL2Time bq.config lastL2Timestamp)
        second.Origin.Time) 0 []
      (fun k hk => by simpa using htotal k hk)
    rw [hcall, hb]
    exact ⟨attributes, rfl⟩
  · intro attributes hret
    obtain ⟨first2, second2, l1Info2, receipts2, _, hf2, h12, hfetch2, hb, _⟩ :=
      DeriveL2Inputs_ok_inv c bq lastL2Timestamp attributes hret
    rw [hf] at hf2
    rw [h1] at h12
    simp only [Option.some.injEq] at hf2 h12
    subst hf2 h12
    rw [hfetch] at hfetch2
    simp only [Except.ok.injEq, Prod.mk.injEq] at hfetch2
    obtain ⟨hi, hr⟩ := hfetch2
    subst hi hr
    rw [derivedBatches_eq] at hb
    obtain ⟨hlen, _, hat⟩ := buildAttributes_ok c bq.config l1Info _ _ 0 [] attributes hb
    refine ⟨by simpa using hlen, ?_⟩
    intro i batch hi
    obtain ⟨tx, _, ha⟩ := hat i batch hi
    simp only [Nat.zero_add, List.length_nil] at ha
    exact ⟨_, tx, ha, rfl, rfl⟩
  · intro filter2 hsame
    rw [DeriveL2Inputs_past_checks c bq lastL2Timestamp first second hw hf h1,
      DeriveL2Inputs_past_checks _ bq lastL2Timestamp first second hw hf h1]
    have hb : derivedBatches { c with FilterBatches := filter2 } bq first.Origin
        second.Origin lastL2Timestamp =
        derivedBatches c bq first.Origin second.Origin lastL2Timestamp := by
      simp only [derivedBatches, collectBatches_eq_flatten, hsame]
    simp only [hb]
    cases c.Fetch first.Origin.Hash with
    | error err => rfl
    | ok v =>
      obtain ⟨l1Info3, receipts3⟩ := v
      simp only
      rw [buildAttributes_congr c { c with FilterBatches := filter2 } bq.config l1Info3 _
        rfl rfl]

/-- Witness of C16: on the sample queue with batches in both slots the
candidates are the batch of the first slot, then the batch of the second; the
filter is called with the bounds 100 and 104 and keeps only the batch for
timestamp 100, which comes from the second slot; the three attributes carry
that batch at 100 and no sequenced transaction at 104 and 108, although a
batch for 108 is buffered. -/
theorem DeriveL2Inputs_filter_candidates_witness :
    (sampleQueueTwoSlots.inputs.map (fun b => b.Batches)).flatten =
      [{ Timestamp := 108, Transactions := [[6]] },
        { Timestamp := 100, Transactions := [[5]] }] ∧
    minL2Time sampleQueueTwoSlots.config 96 = 100 ∧
    maxL2Time sampleQueueTwoSlots.config originA 96 = 104 ∧
    (sampleCollaborators.FilterBatches sampleQueueTwoSlots.config originA.Number
          (minL2Time sampleQueueTwoSlots.config 96)
          (maxL2Time sampleQueueTwoSlots.config originA 96)
          (sampleQueueTwoSlots.inputs.map (fun b => b.Batches)).flatten) = [{ Timestamp := 100, Transactions := [[5]] }] ∧
    (sampleQueueTwoSlots.DeriveL2Inputs sampleCollaborators 96).ret =
      .returned (sampleAttributesTwoSlots, none) ∧
    sampleAttributesTwoSlots.length = (sampleCollaborators.FillMissingBatches
        (sampleCollaborators.FilterBatches sampleQueueTwoSlots.config originA.Number
          (minL2Time sampleQueueTwoSlots.config 96)
          (maxL2Time sampleQueueTwoSlots.config originA 96)
          (sampleQueueTwoSlots.inputs.map (fun b => b.Batches)).flatten)
        originA.Number sampleQueueTwoSlots.config.BlockTime
        (minL2Time sampleQueueTwoSlots.config 96) originLate.Time).length ∧
    ∀ (i : Nat) (batch : BatchData), (sampleCollaborators.FillMissingBatches
        (sampleCollaborators.FilterBatches sampleQueueTwoSlots.config originA.Number
          (minL2Time sampleQueueTwoSlots.config 96)
          (maxL2Time sampleQueueTwoSlots.config originA 96)
          (sampleQueueTwoSlots.inputs.map (fun b => b.Batches)).flatten)
        originA.Number sampleQueueTwoSlots.config.BlockTime
        (minL2Time sampleQueueTwoSlots.config 96) originLate.Time)[i]? = some batch →
        ∃ (attrs : eth.PayloadAttributes) (l1InfoTx : eth.Data),
          sampleAttributesTwoSlots[i]? = some attrs ∧ attrs.Timestamp = batch.Timestamp ∧
          attrs.Transactions = [l1InfoTx] ++
            (if i = 0 then
              (sampleCollaborators.DeriveDeposits 11
                sampleQueueTwoSlots.config.DepositContractAddress).1
              else []) ++ batch.Transactions :=
  ⟨by decide, by decide, by decide, by decide, by decide,
   (DeriveL2Inputs_filter_candidates sampleCollaborators sampleQueueTwoSlots 96
      ⟨originA, [{ Timestamp := 108, Transactions := [[6]] }]⟩
      ⟨originLate, [{ Timestamp := 100, Transactions := [[5]] }]⟩ 1011 11
      (by decide) rfl rfl rfl).2.1 sampleAttributesTwoSlots (by decide)⟩

/-- C17: the value `DeriveL2Inputs` returns, the fetch it makes and the queue
it leaves do not depend on the per-log errors the deposit extraction reports:
two extractions that give the same deposits give the same result. -/
theorem DeriveL2Inputs_deposit_errors_ignored {L1Info Receipts : Type}
    (c : Collaborators L1Info Receipts) (bq : BatchQueue) (lastL2Timestamp : Nat)
    (extract2 : Receipts → common.Address → List eth.Data × List GoError)
    (hsame : ∀ r a, (extract2 r a).1 = (c.DeriveDeposits r a).1) :
    (bq.DeriveL2Inputs { c with DeriveDeposits := extract2 } lastL2Timestamp).ret =
      (bq.DeriveL2Inputs c lastL2Timestamp).ret ∧
    (bq.DeriveL2Inputs { c with DeriveDeposits := extract2 } lastL2Timestamp).fetched =
      (bq.DeriveL2Inputs c lastL2Timestamp).fetched ∧
    (bq.DeriveL2Inputs { c with DeriveDeposits := extract2 } lastL2Timestamp).bq =
      (bq.DeriveL2Inputs c lastL2Timestamp).bq :=
  DeriveL2Inputs_congr c { c with DeriveDeposits := extract2 } bq lastL2Timestamp
    rfl rfl rfl hsame (fun _ _ => rfl)

/-- Witness of C17: on the sample queue, an extraction that reports three
errors beside the same deposit gives the same attributes and the same queue. -/
theorem DeriveL2Inputs_deposit_errors_ignored_witness :
    (sampleQueue.DeriveL2Inputs
        { sampleCollaborators with
          DeriveDeposits := fun _ _ => ([[0xDE]], ["bad log 1", "bad log 2", "bad log 3"]) }
        98).ret = (sampleQueue.DeriveL2Inputs sampleCollaborators 98).ret ∧
    (sampleQueue.DeriveL2Inputs
        { sampleCollaborators with
          DeriveDeposits := fun _ _ => ([[0xDE]], ["bad log 1", "bad log 2", "bad log 3"]) }
        98).fetched = (sampleQueue.DeriveL2Inputs sampleCollaborators 98).fetched ∧
    (sampleQueue.DeriveL2Inputs
        { sampleCollaborators with
          DeriveDeposits := fun _ _ => ([[0xDE]], ["bad log 1", "bad log 2", "bad log 3"]) }
        98).bq = (sampleQueue.DeriveL2Inputs sampleCollaborators 98).bq :=
  DeriveL2Inputs_deposit_errors_ignored sampleCollaborators sampleQueue 98
    (fun _ _ => ([[0xDE]], ["bad log 1", "bad log 2", "bad log 3"])) (fun _ _ => rfl)

/-! ## Consolidation checker: the two sides of a mismatch error -/

theorem matchTransactions_error_inv (blockTxs : List eth.Data) :
    ∀ (txs : List eth.Data) (i : Nat) (e : MatchError),
      matchTransactions blockTxs i txs = .returned (some e) →
      ∃ k otx expect, e = .transaction (i + k) expect otx ∧
        txs[k]? = some otx ∧ blockTxs[i + k]? = some expect ∧ otx ≠ expect := by
  intro txs
  induction txs with
  | nil => intro i e h; simp [matchTransactions] at h
  | cons a rest ih =>
    intro i e h
    unfold matchTransactions at h
    cases hb : blockTxs[i]? with
    | none => simp [hb] at h
    | some expect =>
      simp only [hb] at h
      by_cases hne : a = expect
      · simp only [hne, ne_eq, not_true_eq_false, ↓reduceIte] at h
        obtain ⟨k, otx, ex, he, h1, h2, h3⟩ := ih (i + 1) e h
        refine ⟨k + 1, otx, ex, ?_, by simpa using h1, ?_, h3⟩
        · rw [he]; congr 1; omega
        · rw [← h2]; congr 1; omega
      · simp only [ne_eq, hne, not_false_eq_true, ↓reduceIte, Ret.returned.injEq,
          Option.some.injEq] at h
        exact ⟨0, a, expect, h.symm, by simp, by simpa using hb, hne⟩

/-- C18: the values each mismatch error of `AttributesMatchBlock` carries.
For parent hash, timestamp and randao, `expected` is the derived value and
`got` the value of the block. For the transaction count, `expected` is the
number of transactions of `attrs` and `got` is the transaction list of the
block, not its length. For a transaction at index `i`, `expected` is the
transaction of the block and `got` the transaction of `attrs`: the two sides
are the other way round. -/
theorem AttributesMatchBlock_error_sides (attrs : eth.PayloadAttributes) (p : common.Hash)
    (block : eth.ExecutionPayload) (e : MatchError)
    (h : AttributesMatchBlock attrs p block = .returned (some e)) :
    match e with
    | .parentHash expected got => expected = p ∧ got = block.ParentHash
    | .timestamp expected got => expected = attrs.Timestamp ∧ got = block.Timestamp
    | .random expected got => expected = attrs.PrevRandao ∧ got = block.PrevRandao
    | .txCount expected got =>
      expected = attrs.Transactions.length ∧ got = block.Transactions
    | .transaction i expected got =>
      block.Transactions[i]? = some expected ∧ attrs.Transactions[i]? = some got := by
  unfold AttributesMatchBlock at h
  by_cases h1 : p = block.ParentHash
  · by_cases h2 : attrs.Timestamp = block.Timestamp
    · by_cases h3 : attrs.PrevRandao = block.PrevRandao
      · by_cases h4 : attrs.Transactions.length = block.Transactions.length
        · simp only [ne_eq, h1, h2, h3, h4, not_true_eq_false, ↓reduceIte] at h
          obtain ⟨k, otx, expect, he, ha, hb, _⟩ :=
            matchTransactions_error_inv block.Transactions attrs.Transactions 0 e h
          subst he
          simp only [Nat.zero_add] at hb ⊢
          exact ⟨hb, ha⟩
        · simp only [ne_eq, h1, h2, h3, h4, not_true_eq_false, not_false_eq_true,
            ↓reduceIte, Ret.returned.injEq, Option.some.injEq] at h
          subst h
          exact ⟨rfl, rfl⟩
      · simp only [ne_eq, h1, h2, h3, not_true_eq_false, not_false_eq_true,
          ↓reduceIte, Ret.returned.injEq, Option.some.injEq] at h
        subst h
        exact ⟨rfl, rfl⟩
    · simp only [ne_eq, h1, h2, not_true_eq_false, not_false_eq_true,
        ↓reduceIte, Ret.returned.injEq, Option.some.injEq] at h
      subst h
      exact ⟨rfl, rfl⟩
  · simp only [ne_eq, h1, not_false_eq_true, ↓reduceIte, Ret.returned.injEq,
      Option.some.injEq] at h
    subst h
    exact ⟨rfl, rfl⟩

/-- Witness of C18: derived transaction `[2]` against block transaction `[4]`
is reported with `expected = [4]` and `got = [2]`. -/
theorem AttributesMatchBlock_error_sides_witness :
    AttributesMatchBlock ⟨5, 7, 0, [[2]], true⟩ 9 ⟨9, 5, 7, [[4]]⟩ =
      .returned (some (.transaction 0 [4] [2])) ∧
    (⟨9, 5, 7, [[4]]⟩ : eth.ExecutionPayload).Transactions[0]? = some [4] ∧
    (⟨5, 7, 0, [[2]], true⟩ : eth.PayloadAttributes).Transactions[0]? = some [2] :=
  ⟨by decide,
   AttributesMatchBlock_error_sides ⟨5, 7, 0, [[2]], true⟩ 9 ⟨9, 5, 7, [[4]]⟩
     (.transaction 0 [4] [2]) (by decide)⟩

/-! ## Batch queue: adjacent continuity and the tail after a derivation -/

theorem linked_adjacent :
    ∀ (l : List BatchesWithOrigin) (parent : common.Hash), linked parent l = true →
      ∀ (i : Nat) (e1 e2 : BatchesWithOrigin), l[i]? = some e1 → l[i + 1]? = some e2 →
        e2.Origin.ParentHash = e1.Origin.Hash := by
  intro l
  induction l with
  | nil => intro parent _ i e1 e2 h1; simp at h1
  | cons a rest ih =>
    intro parent hl i e1 e2 h1 h2
    simp only [linked, Bool.and_eq_true, decide_eq_true_eq] at hl
    cases i with
    | zero =>
      simp only [List.getElem?_cons_zero, Option.some.injEq] at h1
      subst h1
      simp only [Nat.zero_add, List.getElem?_cons_succ] at h2
      cases rest with
      | nil => simp at h2
      | cons b rest2 =>
        simp only [List.getElem?_cons_zero, Option.some.injEq] at h2
        subst h2
        simp only [linked, Bool.and_eq_true, decide_eq_true_eq] at hl
        exact hl.2.1
    | succ i =>
      simp only [List.getElem?_cons_succ] at h1 h2
      exact ih a.Origin.Hash hl.2 i e1 e2 h1 h2

/-- C19: in every state reachable from `Reset` by any sequence of
`AddOrigin`, `AddBatch`, `DeriveL2Inputs` and `Reset` calls, every buffered
entry other than the first has `Origin.ParentHash` equal to the `Origin.Hash`
of the entry immediately before it. -/
theorem run_adjacent {L1Info Receipts : Type} (bq : BatchQueue) (head : eth.L2BlockRef)
    (ops : List (Op L1Info Receipts)) (i : Nat) (e1 e2 : BatchesWithOrigin)
    (h1 : (run (bq.Reset head) ops).inputs[i]? = some e1)
    (h2 : (run (bq.Reset head) ops).inputs[i + 1]? = some e2) :
    e2.Origin.ParentHash = e1.Origin.Hash :=
  linked_adjacent _ _
    (anchored_run ops (bq.Reset head) none ⟨rfl, fun hne => absurd rfl hne⟩).1 i e1 e2 h1 h2

/-- Witness of C19: after a reset, three chained origins, a rejected origin,
a batch and a derivation, `originC` follows `originB` in the window. -/
theorem run_adjacent_witness :
    (run (sampleQueue.Reset sampleHead)
      [Op.addOrigin originA, .addOrigin originB, .addOrigin originC, .addOrigin originX,
        .addBatch sampleBatch, .deriveL2Inputs sampleCollaborators 98]).inputs =
      [⟨originB, []⟩, ⟨originC, [sampleBatch]⟩] ∧
    originC.ParentHash = originB.Hash :=
  ⟨by decide,
   run_adjacent sampleQueue sampleHead
     [Op.addOrigin originA, .addOrigin originB, .addOrigin originC, .addOrigin originX,
       .addBatch sampleBatch, .deriveL2Inputs sampleCollaborators 98]
     0 ⟨originB, []⟩ ⟨originC, [sampleBatch]⟩ (by decide) (by decide)⟩

theorem DeriveL2Inputs_last {L1Info Receipts : Type}
    (c : Collaborators L1Info Receipts) (bq : BatchQueue) (lastL2Timestamp : Nat) :
    (bq.DeriveL2Inputs c lastL2Timestamp).bq.last = bq.last := by
  by_cases hok : ∃ attributes,
      (bq.DeriveL2Inputs c lastL2Timestamp).ret = .returned (attributes, none)
  · obtain ⟨attributes, hret⟩ := hok
    obtain ⟨_, _, _, _, _, _, _, _, _, hbq⟩ :=
      DeriveL2Inputs_ok_inv c bq lastL2Timestamp attributes hret
    rw [hbq]
  · rw [DeriveL2Inputs_bq_of_not_ok c bq lastL2Timestamp (fun a ha => hok ⟨a, ha⟩)]

/-- C20: `DeriveL2Inputs` never changes the recorded head; it returns
successfully only from a window of at least two origins and leaves at least
one; the last slot of the window stays the last slot, so the parent check of
the next `AddOrigin` is made against the hash of that tail origin. -/
theorem DeriveL2Inputs_keeps_tail {L1Info Receipts : Type}
    (c : Collaborators L1Info Receipts) (bq : BatchQueue) (lastL2Timestamp : Nat) :
    (bq.DeriveL2Inputs c lastL2Timestamp).bq.last = bq.last ∧
    ∀ attributes,
      (bq.DeriveL2Inputs c lastL2Timestamp).ret = .returned (attributes, none) →
      2 ≤ bq.inputs.length ∧ 1 ≤ (bq.DeriveL2Inputs c lastL2Timestamp).bq.inputs.length ∧
      ∃ tail, bq.inputs.getLast? = some tail ∧
        (bq.DeriveL2Inputs c lastL2Timestamp).bq.inputs.getLast? = some tail ∧
        (bq.DeriveL2Inputs c lastL2Timestamp).bq.lastOrigin = tail.Origin.ID ∧
        ∀ o, (((bq.DeriveL2Inputs c lastL2Timestamp).bq.AddOrigin o).1 = none ↔
          o.ParentHash = tail.Origin.Hash) := by
  refine ⟨DeriveL2Inputs_last c bq lastL2Timestamp, fun attributes hret => ?_⟩
  obtain ⟨first, second, _, _, _, hf, h1, _, _, hbq⟩ :=
    DeriveL2Inputs_ok_inv c bq lastL2Timestamp attributes hret
  rw [hbq]
  cases hin : bq.inputs with
  | nil => simp [hin] at hf
  | cons a rest =>
    cases rest with
    | nil => simp [hin] at h1
    | cons b rest2 =>
      simp only [List.drop_succ_cons, List.drop_zero, List.length_cons]
      refine ⟨by omega, by omega, ?_⟩
      cases hlast : (b :: rest2).getLast? with
      | none => simp at hlast
      | some tail =>
        refine ⟨tail, by rw [List.getLast?_cons_cons, hlast], rfl, ?_, ?_⟩
        · simp [BatchQueue.lastOrigin, hlast]
        · intro o
          have hlo : ({ bq with inputs := b :: rest2 } : BatchQueue).lastOrigin =
              tail.Origin.ID := by
            simp [BatchQueue.lastOrigin, hlast]
          unfold BatchQueue.AddOrigin
          rw [hlo]
          by_cases hp : tail.Origin.ID.Hash = o.ParentHash
          · simp only [ne_eq, hp, not_true_eq_false, ↓reduceIte, true_iff]
            exact hp.symm
          · simp only [ne_eq, hp, not_false_eq_true, ↓reduceIte, reduceCtorEq, false_iff]
            exact fun h => hp h.symm

/-- Witness of C20: after the derivation on the sample queue the window holds
`originB`, and `originC` is accepted while `originA` is not. -/
theorem DeriveL2Inputs_keeps_tail_witness :
    2 ≤ sampleQueue.inputs.length ∧
    1 ≤ (sampleQueue.DeriveL2Inputs sampleCollaborators 98).bq.inputs.length ∧
    ∃ tail, sampleQueue.inputs.getLast? = some tail ∧
      (sampleQueue.DeriveL2Inputs sampleCollaborators 98).bq.inputs.getLast? = some tail ∧
      (sampleQueue.DeriveL2Inputs sampleCollaborators 98).bq.lastOrigin = tail.Origin.ID ∧
      ∀ o, (((sampleQueue.DeriveL2Inputs sampleCollaborators 98).bq.AddOrigin o).1 = none ↔
        o.ParentHash = tail.Origin.Hash) :=
  (DeriveL2Inputs_keeps_tail sampleCollaborators sampleQueue 98).2 sampleAttributes
    (by decide)

end OpNode
